import Mathlib

/-!
# duzy/imap: command parser and session state machine

A shallow embedding of `server_parser.go` and `server_command.go`.

* The lexer is a token stream; `lexer.next` pops its head.  A parser routine is a
  function from the lexer state to an outcome and the lexer state it leaves
  behind, so that the tokens a call consumed stay visible when it panics.
* `panic(parseError(..))` is the `Except.error` outcome.
* `execute` threads the session explicitly and returns the response together
  with the session after the call.
* `strings.ToLower` belongs to the Go standard library and is a parameter
  `toLower` of `parser.next`; `asciiLower` is an instance used on examples.
-/

namespace imap

/-! ## Tokens and the lexer -/

/-- Modelled from the spec: the token kinds declared in the lexer source file,
"kind: one of {Atom, EndOfLine}"; `stringTokenType` is the Atom kind. -/
inductive tokenType
  | stringTokenType
  | eolTokenType
  deriving DecidableEq, Repr

/-- Modelled from the spec: the lexer's token record, "{kind, value: text}". -/
structure token where
  tokType : tokenType
  value : String
  deriving DecidableEq, Repr

/-- `type parseError string`, "An Error from the IMAP parser or lexer".  The
message built by `parser.match` is kept as its two arguments; `endOfInput` is
what the lexer reports when no token is left. -/
inductive parseError
  | unexpectedToken (expected actual : tokenType)
  | endOfInput
  deriving DecidableEq, Repr

/-- Modelled from the spec: the lexer state, the tokens not yet consumed
("Produced lazily, one per lexical unit; consumed exactly once"). -/
abbrev lexer := List token

deriving instance DecidableEq for Except

/-- Outcome of a parser routine together with the lexer state it leaves. -/
abbrev parsed (α : Type) := Except parseError α × lexer

/-- Modelled from the spec: `lexer.next`, "returns the next Token"; on an
exhausted stream it fails and leaves the stream as it is. -/
def lexer.next : lexer → parsed token
  | [] => (.error .endOfInput, [])
  | tok :: l => (.ok tok, l)

/-! ## Commands -/

/-- The implementations of the `command` interface, with their fields. -/
inductive command
  | serveNoopCommand (tag : String)
  | serveCapabilityCommand (tag : String)
  | serveLoginCommand (tag userId password : String)
  | serveLogoutCommand (tag : String)
  | serveSelectCommand (tag mailbox : String)
  | serveListCommand (tag : String)
  | serveFetchCommand (tag seq dat : String)
  | serveUnknownCommand (tag cmd : String)
  deriving DecidableEq, Repr

/-! ## Parser -/

/-- `parser.match`: take the next token and panic unless it has the expected
type.  The mismatching token has been consumed when the panic is raised. -/
def parser.match_ (expected : tokenType) (l : lexer) : parsed token :=
  match lexer.next l with
  | (.error e, l1) => (.error e, l1)
  | (.ok tok, l1) =>
    if tok.tokType ≠ expected then
      (.error (.unexpectedToken expected tok.tokType), l1)
    else
      (.ok tok, l1)

/-- `parser.noop`. -/
def parser.noop (tag : String) (l : lexer) : parsed command :=
  match parser.match_ .eolTokenType l with
  | (.error e, l1) => (.error e, l1)
  | (.ok _, l1) => (.ok (.serveNoopCommand tag), l1)

/-- `parser.capability`. -/
def parser.capability (tag : String) (l : lexer) : parsed command :=
  match parser.match_ .eolTokenType l with
  | (.error e, l1) => (.error e, l1)
  | (.ok _, l1) => (.ok (.serveCapabilityCommand tag), l1)

/-- `parser.login`. -/
def parser.login (tag : String) (l : lexer) : parsed command :=
  match parser.match_ .stringTokenType l with
  | (.error e, l1) => (.error e, l1)
  | (.ok userId, l1) =>
    match parser.match_ .stringTokenType l1 with
    | (.error e, l2) => (.error e, l2)
    | (.ok password, l2) =>
      match parser.match_ .eolTokenType l2 with
      | (.error e, l3) => (.error e, l3)
      | (.ok _, l3) => (.ok (.serveLoginCommand tag userId.value password.value), l3)

/-- `parser.logout`. -/
def parser.logout (tag : String) (l : lexer) : parsed command :=
  match parser.match_ .eolTokenType l with
  | (.error e, l1) => (.error e, l1)
  | (.ok _, l1) => (.ok (.serveLogoutCommand tag), l1)

/-- `parser.selectC`. -/
def parser.selectC (tag : String) (l : lexer) : parsed command :=
  match parser.match_ .stringTokenType l with
  | (.error e, l1) => (.error e, l1)
  | (.ok mailbox, l1) =>
    match parser.match_ .eolTokenType l1 with
    | (.error e, l2) => (.error e, l2)
    | (.ok _, l2) => (.ok (.serveSelectCommand tag mailbox.value), l2)

/-- `parser.list`: builds the command without reading any token. -/
def parser.list (tag : String) (l : lexer) : parsed command :=
  (.ok (.serveListCommand tag), l)

/-- `parser.fetch`: builds the command without reading any token; `seq` and
`dat` keep their zero value, the empty string. -/
def parser.fetch (tag : String) (l : lexer) : parsed command :=
  (.ok (.serveFetchCommand tag "" ""), l)

/-- `parser.unknown`: the loop reads tokens until it has read an end-of-line
token. -/
def parser.unknown (tag : String) (cmd : String) : lexer → parsed command
  | [] => (.error .endOfInput, [])
  | tok :: l =>
    if tok.tokType ≠ .eolTokenType then parser.unknown tag cmd l
    else (.ok (.serveUnknownCommand tag cmd), l)

/-- `parser.next`: parse the next command. -/
def parser.next (toLower : String → String) (l : lexer) : parsed command :=
  match parser.match_ .stringTokenType l with
  | (.error e, l1) => (.error e, l1)
  | (.ok tagToken, l1) =>
    match parser.match_ .stringTokenType l1 with
    | (.error e, l2) => (.error e, l2)
    | (.ok commandToken, l2) =>
      let rawCommand := commandToken.value
      let lcCommand := toLower rawCommand
      let tag := tagToken.value
      if lcCommand = "noop" then parser.noop tag l2
      else if lcCommand = "capability" then parser.capability tag l2
      else if lcCommand = "login" then parser.login tag l2
      else if lcCommand = "logout" then parser.logout tag l2
      else if lcCommand = "select" then parser.selectC tag l2
      else if lcCommand = "list" then parser.list tag l2
      else if lcCommand = "fetch" then parser.fetch tag l2
      else parser.unknown tag rawCommand l2

/-- ASCII letter case folding, an instance of `toLower` for examples. -/
def asciiLower (s : String) : String :=
  ⟨s.data.map fun c => if 65 ≤ c.toNat ∧ c.toNat ≤ 90 then Char.ofNat (c.toNat + 32) else c⟩

/-! ## Responses -/

/-- Modelled from the spec: the status codes of the response builder source
file, "statusCode: one of {OK, NO, BAD}". -/
inductive statusCode
  | OK
  | NO
  | BAD
  deriving DecidableEq, Repr

/-- Modelled from the spec: the response record of the response builder,
"{tag, statusCode, message, extraLines: ordered sequence of untagged lines,
closeConnection: boolean}". -/
structure serverResponse where
  tag : String
  status : statusCode
  message : String
  extraLines : List String
  closeConnection : Bool
  deriving DecidableEq, Repr

/-- Modelled from the spec: the response builder helper `ok`, a tagged OK
status line with no untagged line and the close flag clear. -/
def ok (tag message : String) : serverResponse :=
  { tag := tag, status := .OK, message := message, extraLines := [], closeConnection := false }

/-- Modelled from the spec: the response builder helper `no`. -/
def no (tag message : String) : serverResponse :=
  { tag := tag, status := .NO, message := message, extraLines := [], closeConnection := false }

/-- Modelled from the spec: the response builder helper `bad`. -/
def bad (tag message : String) : serverResponse :=
  { tag := tag, status := .BAD, message := message, extraLines := [], closeConnection := false }

/-- Modelled from the spec: the fluent step `extra` of the response builder,
which appends one untagged line. -/
def serverResponse.extra (r : serverResponse) (line : String) : serverResponse :=
  { r with extraLines := r.extraLines ++ [line] }

/-- Modelled from the spec: the fluent step `shouldClose` of the response
builder, which marks the connection for closure. -/
def serverResponse.shouldClose (r : serverResponse) : serverResponse :=
  { r with closeConnection := true }

/-! ## Sessions -/

/-- Modelled from the spec: the authentication states of the session source
file, "enum{NotAuthenticated, Authenticated}". -/
inductive state
  | notAuthenticated
  | authenticated
  deriving DecidableEq, Repr

/-- Modelled from the spec: the session record, "{authenticationState,
selectedMailbox: optional}"; `logged` is the sequence of messages handed to the
logging collaborator, oldest first. -/
structure session where
  st : state
  mailbox : Option String
  logged : List String
  deriving DecidableEq, Repr

/-- Modelled from the spec: the mailbox store collaborator,
"selectMailbox(name) → (exists: bool, error)" and "addMailboxInfo(response) →
error".  An error is its text (`err.Error()`); a successful `addMailboxInfo`
yields the untagged lines it attaches, which may depend on the selected mailbox
and on the response it is given. -/
structure mailstore where
  selectMailbox : String → Except String Bool
  addMailboxInfo : Option String → serverResponse → Except String (List String)

/-- Modelled from the spec: `session.log`, "log(message) — fire-and-forget". -/
def session.log (sess : session) (message : String) : session :=
  { sess with logged := sess.logged ++ [message] }

/-- Modelled from the spec: `session.selectMailbox`, which asks the mailbox store
for the mailbox and keeps the selection outcome in the session when it exists. -/
def session.selectMailbox (store : mailstore) (sess : session) (name : String) :
    Except String Bool × session :=
  match store.selectMailbox name with
  | .error err => (.error err, sess)
  | .ok false => (.ok false, sess)
  | .ok true => (.ok true, { sess with mailbox := some name })

/-- Modelled from the spec: `session.addMailboxInfo`, which attaches the summary
lines of the selected mailbox to the response through `extra`. -/
def session.addMailboxInfo (store : mailstore) (sess : session) (res : serverResponse) :
    Except String serverResponse :=
  match store.addMailboxInfo sess.mailbox res with
  | .error err => .error err
  | .ok lines => .ok (lines.foldl serverResponse.extra res)

/-! ## Command execution -/

/-- `internalError`: log an error and return a response. -/
def internalError (sess : session) (tag commandName err : String) : serverResponse × session :=
  let message := commandName ++ " " ++ err
  ((no tag message).shouldClose, sess.log message)

/-- `serveNoopCommand.execute`. -/
def serveNoopCommand.execute (tag : String) (s : session) : serverResponse × session :=
  (ok tag "NOOP Completed", s)

/-- `serveCapabilityCommand.execute`. -/
def serveCapabilityCommand.execute (tag : String) (s : session) : serverResponse × session :=
  ((ok tag "CAPABILITY completed").extra "CAPABILITY IMAP4rev1", s)

/-- `serveLoginCommand.execute`; the credential test of the source is the
constant `true`. -/
def serveLoginCommand.execute (tag _userId _password : String) (sess : session) :
    serverResponse × session :=
  if sess.st ≠ .notAuthenticated then
    let message := "LOGIN already logged in"
    (bad tag message, sess.log message)
  else if True then
    (ok tag "LOGIN completed", { sess with st := .authenticated })
  else
    (no tag "LOGIN failure", sess)

/-- `serveLogoutCommand.execute`. -/
def serveLogoutCommand.execute (tag : String) (sess : session) : serverResponse × session :=
  (((ok tag "LOGOUT completed").extra "BYE IMAP4rev1 Server logging out").shouldClose,
    { sess with st := .notAuthenticated })

/-- `serveSelectCommand.execute`. -/
def serveSelectCommand.execute (store : mailstore) (tag mailbox : String) (sess : session) :
    serverResponse × session :=
  if sess.st ≠ .authenticated then
    let message := "SELECT not authenticated"
    (bad tag message, sess.log message)
  else
    match session.selectMailbox store sess mailbox with
    | (.error err, sess1) => internalError sess1 tag "SELECT" err
    | (.ok false, sess1) => (no tag "SELECT No such mailbox", sess1)
    | (.ok true, sess1) =>
      match session.addMailboxInfo store sess1 (ok tag "SELECT completed") with
      | .error err => internalError sess1 tag "SELECT" err
      | .ok res => (res, sess1)

/-- `serveListCommand.execute`. -/
def serveListCommand.execute (tag : String) (s : session) : serverResponse × session :=
  let message := "LIST " ++ tag
  (bad tag message, s.log message)

/-- `serveFetchCommand.execute`. -/
def serveFetchCommand.execute (tag seq dat : String) (s : session) : serverResponse × session :=
  let message := tag ++ " FETCH " ++ seq ++ " " ++ dat
  (bad tag message, s.log message)

/-- `serveUnknownCommand.execute`. -/
def serveUnknownCommand.execute (tag cmd : String) (s : session) : serverResponse × session :=
  let message := "BAD unknown \x27" ++ cmd ++ "\x27 command"
  (bad tag message, s.log message)

/-- The `execute` method of the `command` interface: dispatch on the variant. -/
def command.execute (store : mailstore) : command → session → serverResponse × session
  | .serveNoopCommand tag, s => serveNoopCommand.execute tag s
  | .serveCapabilityCommand tag, s => serveCapabilityCommand.execute tag s
  | .serveLoginCommand tag userId password, s => serveLoginCommand.execute tag userId password s
  | .serveLogoutCommand tag, s => serveLogoutCommand.execute tag s
  | .serveSelectCommand tag mailbox, s => serveSelectCommand.execute store tag mailbox s
  | .serveListCommand tag, s => serveListCommand.execute tag s
  | .serveFetchCommand tag seq dat, s => serveFetchCommand.execute tag seq dat s
  | .serveUnknownCommand tag cmd, s => serveUnknownCommand.execute tag cmd s

/-! ## Auxiliary notions used in the statements -/

/-- The tag field carried by every command variant. -/
def command.tag : command → String
  | .serveNoopCommand tag => tag
  | .serveCapabilityCommand tag => tag
  | .serveLoginCommand tag _ _ => tag
  | .serveLogoutCommand tag => tag
  | .serveSelectCommand tag _ => tag
  | .serveListCommand tag => tag
  | .serveFetchCommand tag _ _ => tag
  | .serveUnknownCommand tag _ => tag

/-- The text `sub` occurs in `s` as a contiguous run of characters. -/
def occursIn (sub s : String) : Prop := sub.data <:+: s.data

instance (sub s : String) : Decidable (occursIn sub s) := by
  unfold occursIn; infer_instance

/-- The keywords `parser.next` dispatches on, in lowercase. -/
def keywords : List String :=
  ["noop", "capability", "login", "logout", "select", "list", "fetch"]

/-- A mailbox store in which exactly "INBOX" exists and whose summary is one
untagged line. -/
def inboxStore : mailstore where
  selectMailbox := fun name => .ok (name = "INBOX")
  addMailboxInfo := fun _ _ => .ok ["1 EXISTS"]

/-- A mailbox store whose every operation fails. -/
def brokenStore : mailstore where
  selectMailbox := fun _ => .error "store offline"
  addMailboxInfo := fun _ _ => .error "store offline"

/-- The session a connection starts with. -/
def freshSession : session := { st := .notAuthenticated, mailbox := none, logged := [] }

/-- The kind of the token at position `i` of the stream, counted from 0. -/
def kindAt (l : lexer) (i : Nat) : Option tokenType := l[i]?.map token.tokType

/-- The lowercase form of the keyword, the value of the second token. -/
def keywordAt (toLower : String → String) (l : lexer) : Option String :=
  l[1]?.map fun t => toLower t.value

/-- A stream of complete lines: it is not empty and its last token is an
end-of-line token. -/
def terminated (l : lexer) : Prop := l.getLast?.map token.tokType = some .eolTokenType

instance (l : lexer) : Decidable (terminated l) := by
  unfold terminated; infer_instance

/-- The failure condition of `parser.next` in the words of the specification,
with tokens numbered from 1: the first or the second token is not an Atom, or
the keyword is noop, capability or logout and the third token is not an
end-of-line, or the keyword is login and tokens 3, 4, 5 are not Atom, Atom,
end-of-line, or the keyword is select and tokens 3, 4 are not Atom, end-of-line. -/
def failsBySpec (toLower : String → String) (l : lexer) : Prop :=
  kindAt l 0 ≠ some .stringTokenType ∨
  kindAt l 1 ≠ some .stringTokenType ∨
  ((keywordAt toLower l = some "noop" ∨ keywordAt toLower l = some "capability" ∨
      keywordAt toLower l = some "logout") ∧
    kindAt l 2 ≠ some .eolTokenType) ∨
  (keywordAt toLower l = some "login" ∧
    ¬ (kindAt l 2 = some .stringTokenType ∧ kindAt l 3 = some .stringTokenType ∧
        kindAt l 4 = some .eolTokenType)) ∨
  (keywordAt toLower l = some "select" ∧
    ¬ (kindAt l 2 = some .stringTokenType ∧ kindAt l 3 = some .eolTokenType))

instance (toLower : String → String) (l : lexer) : Decidable (failsBySpec toLower l) := by
  unfold failsBySpec; infer_instance

/-- An Authenticated session with no mailbox selected. -/
def authSession : session := { st := .authenticated, mailbox := none, logged := [] }

/-- A mailbox store in which "INBOX" exists and whose summary cannot be read. -/
def halfBrokenStore : mailstore where
  selectMailbox := fun name => .ok (name = "INBOX")
  addMailboxInfo := fun _ _ => .error "summary unreadable"

/-- The commands whose `execute` touches the session through the logger only:
NOOP, CAPABILITY, LIST, FETCH and UNKNOWN. -/
def command.isQuiet : command → Bool
  | .serveNoopCommand _ => true
  | .serveCapabilityCommand _ => true
  | .serveListCommand _ => true
  | .serveFetchCommand _ _ _ => true
  | .serveUnknownCommand _ _ => true
  | _ => false

/-- The command is a SELECT. -/
def command.isSelect : command → Bool
  | .serveSelectCommand _ _ => true
  | _ => false

/-- The mailbox store returns an error to a SELECT of `mailbox` tagged `tag`:
either `selectMailbox` fails, or it finds the mailbox and `addMailboxInfo`
fails. -/
def storeErrs (store : mailstore) (tag mailbox : String) : Prop :=
  (∃ err, store.selectMailbox mailbox = .error err) ∨
  (store.selectMailbox mailbox = .ok true ∧
    ∃ err, store.addMailboxInfo (some mailbox) (ok tag "SELECT completed") = .error err)

/-- The token kinds a command line must show, in stream order, for a lowercase
keyword, in the words of the specification: an Atom tag, an Atom keyword, then
"the exact number of required Atom tokens for that command" and "the
end-of-line token"; nothing is required after any other keyword. -/
def expectedKinds (lcCommand : String) : List tokenType :=
  [.stringTokenType, .stringTokenType] ++
    if lcCommand = "noop" ∨ lcCommand = "capability" ∨ lcCommand = "logout" then
      [.eolTokenType]
    else if lcCommand = "login" then [.stringTokenType, .stringTokenType, .eolTokenType]
    else if lcCommand = "select" then [.stringTokenType, .eolTokenType]
    else []

/-- The lowercase keyword of a stream, empty when the stream has no second
token. -/
def keywordOf (toLower : String → String) (l : lexer) : String :=
  (keywordAt toLower l).getD ""

/-- The command is a LOGIN. -/
def command.isLogin : command → Bool
  | .serveLoginCommand _ _ _ => true
  | _ => false

/-- The command is a LOGOUT. -/
def command.isLogout : command → Bool
  | .serveLogoutCommand _ => true
  | _ => false

/-- Execute a finite sequence of commands in order on one session, each against
the mailbox store as it behaves at that moment, and return the session after
the last one. -/
def runCommands : List (mailstore × command) → session → session
  | [], sess => sess
  | (store, c) :: steps, sess => runCommands steps (c.execute store sess).2

/-- The sequence contains a LOGIN command with no LOGOUT command after it. -/
def loginStands (cs : List command) : Prop :=
  ∃ before c after, cs = before ++ c :: after ∧ c.isLogin = true ∧
    ∀ d ∈ after, d.isLogout = false

/-! ## Lemmas on the response builder and on `execute` -/

theorem foldl_extra_fields (lines : List String) (r : serverResponse) :
    (lines.foldl serverResponse.extra r).tag = r.tag ∧
    (lines.foldl serverResponse.extra r).status = r.status ∧
    (lines.foldl serverResponse.extra r).message = r.message ∧
    (lines.foldl serverResponse.extra r).closeConnection = r.closeConnection := by
  induction lines generalizing r with
  | nil => simp
  | cons line lines ih =>
    simp only [List.foldl_cons]
    obtain ⟨h1, h2, h3, h4⟩ := ih (r.extra line)
    exact ⟨h1, h2, h3, h4⟩

theorem selectMailbox_st (store : mailstore) (sess : session) (name : String) :
    (session.selectMailbox store sess name).2.st = sess.st := by
  unfold session.selectMailbox
  split <;> rfl

theorem select_notAuthenticated (store : mailstore) (tag mailbox : String) (sess : session)
    (h : sess.st ≠ .authenticated) :
    serveSelectCommand.execute store tag mailbox sess =
      (bad tag "SELECT not authenticated", sess.log "SELECT not authenticated") := by
  simp [serveSelectCommand.execute, h]

theorem select_lookup_error (store : mailstore) (tag mailbox err : String) (sess : session)
    (h : sess.st = .authenticated) (hs : store.selectMailbox mailbox = .error err) :
    serveSelectCommand.execute store tag mailbox sess = internalError sess tag "SELECT" err := by
  simp [serveSelectCommand.execute, session.selectMailbox, h, hs]

theorem select_absent (store : mailstore) (tag mailbox : String) (sess : session)
    (h : sess.st = .authenticated) (hs : store.selectMailbox mailbox = .ok false) :
    serveSelectCommand.execute store tag mailbox sess = (no tag "SELECT No such mailbox", sess) := by
  simp [serveSelectCommand.execute, session.selectMailbox, h, hs]

theorem select_info_error (store : mailstore) (tag mailbox err : String) (sess : session)
    (h : sess.st = .authenticated) (hs : store.selectMailbox mailbox = .ok true)
    (hi : store.addMailboxInfo (some mailbox) (ok tag "SELECT completed") = .error err) :
    serveSelectCommand.execute store tag mailbox sess =
      internalError { sess with mailbox := some mailbox } tag "SELECT" err := by
  simp [serveSelectCommand.execute, session.selectMailbox, session.addMailboxInfo, h, hs, hi]

theorem select_present (store : mailstore) (tag mailbox : String) (lines : List String)
    (sess : session)
    (h : sess.st = .authenticated) (hs : store.selectMailbox mailbox = .ok true)
    (hi : store.addMailboxInfo (some mailbox) (ok tag "SELECT completed") = .ok lines) :
    serveSelectCommand.execute store tag mailbox sess =
      (lines.foldl serverResponse.extra (ok tag "SELECT completed"),
        { sess with mailbox := some mailbox }) := by
  simp [serveSelectCommand.execute, session.selectMailbox, session.addMailboxInfo, h, hs, hi]

theorem select_execute_tag (store : mailstore) (tag mailbox : String) (sess : session) :
    (serveSelectCommand.execute store tag mailbox sess).1.tag = tag := by
  by_cases h : sess.st = .authenticated
  · match hs : store.selectMailbox mailbox with
    | .error err => rw [select_lookup_error store tag mailbox err sess h hs]; rfl
    | .ok false => rw [select_absent store tag mailbox sess h hs]; rfl
    | .ok true =>
      match hi : store.addMailboxInfo (some mailbox) (ok tag "SELECT completed") with
      | .error err => rw [select_info_error store tag mailbox err sess h hs hi]; rfl
      | .ok lines =>
        rw [select_present store tag mailbox lines sess h hs hi]
        exact (foldl_extra_fields _ _).1
  · rw [select_notAuthenticated store tag mailbox sess h]; rfl

theorem execute_tag (store : mailstore) (c : command) (sess : session) :
    (c.execute store sess).1.tag = c.tag := by
  cases c with
  | serveLoginCommand tag u p =>
    simp only [command.execute, command.tag, serveLoginCommand.execute]
    split <;> simp [bad, ok]
  | serveSelectCommand tag mailbox => exact select_execute_tag store tag mailbox sess
  | _ => rfl

/-! ## Lemmas on the parser -/

theorem match_ok (expected : tokenType) (l rest : lexer) (tok : token)
    (h : parser.match_ expected l = (.ok tok, rest)) :
    l = tok :: rest ∧ tok.tokType = expected := by
  cases l with
  | nil => simp [parser.match_, lexer.next] at h
  | cons t l1 =>
    simp only [parser.match_, lexer.next] at h
    split at h
    · simp at h
    · rename_i hne
      simp only [Prod.mk.injEq, Except.ok.injEq] at h
      obtain ⟨rfl, rfl⟩ := h
      exact ⟨rfl, not_not.mp hne⟩

theorem match_cons (expected : tokenType) (t : token) (l : lexer) :
    parser.match_ expected (t :: l) =
      if t.tokType = expected then (.ok t, l)
      else (.error (.unexpectedToken expected t.tokType), l) := by
  simp only [parser.match_, lexer.next]
  by_cases h : t.tokType = expected <;> simp [h]

theorem match_nil (expected : tokenType) :
    parser.match_ expected [] = (.error .endOfInput, []) := rfl

theorem noop_cons (tag : String) (t : token) (l : lexer) :
    parser.noop tag (t :: l) =
      if t.tokType = .eolTokenType then (.ok (.serveNoopCommand tag), l)
      else (.error (.unexpectedToken .eolTokenType t.tokType), l) := by
  by_cases h : t.tokType = .eolTokenType <;> simp [parser.noop, match_cons, h]

theorem capability_cons (tag : String) (t : token) (l : lexer) :
    parser.capability tag (t :: l) =
      if t.tokType = .eolTokenType then (.ok (.serveCapabilityCommand tag), l)
      else (.error (.unexpectedToken .eolTokenType t.tokType), l) := by
  by_cases h : t.tokType = .eolTokenType <;> simp [parser.capability, match_cons, h]

theorem logout_cons (tag : String) (t : token) (l : lexer) :
    parser.logout tag (t :: l) =
      if t.tokType = .eolTokenType then (.ok (.serveLogoutCommand tag), l)
      else (.error (.unexpectedToken .eolTokenType t.tokType), l) := by
  by_cases h : t.tokType = .eolTokenType <;> simp [parser.logout, match_cons, h]

theorem selectC_cons (tag : String) (t : token) (l : lexer) :
    parser.selectC tag (t :: l) =
      if t.tokType = .stringTokenType then
        match l with
        | [] => (.error .endOfInput, [])
        | e :: l1 =>
          if e.tokType = .eolTokenType then (.ok (.serveSelectCommand tag t.value), l1)
          else (.error (.unexpectedToken .eolTokenType e.tokType), l1)
      else (.error (.unexpectedToken .stringTokenType t.tokType), l) := by
  by_cases h : t.tokType = .stringTokenType
  · cases l with
    | nil => simp [parser.selectC, match_cons, match_nil, h]
    | cons e l1 =>
      by_cases he : e.tokType = .eolTokenType <;> simp [parser.selectC, match_cons, h, he]
  · simp [parser.selectC, match_cons, h]

theorem login_cons (tag : String) (t : token) (l : lexer) :
    parser.login tag (t :: l) =
      if t.tokType = .stringTokenType then
        match l with
        | [] => (.error .endOfInput, [])
        | p :: l1 =>
          if p.tokType = .stringTokenType then
            match l1 with
            | [] => (.error .endOfInput, [])
            | e :: l2 =>
              if e.tokType = .eolTokenType then
                (.ok (.serveLoginCommand tag t.value p.value), l2)
              else (.error (.unexpectedToken .eolTokenType e.tokType), l2)
          else (.error (.unexpectedToken .stringTokenType p.tokType), l1)
      else (.error (.unexpectedToken .stringTokenType t.tokType), l) := by
  by_cases h : t.tokType = .stringTokenType
  · cases l with
    | nil => simp [parser.login, match_cons, match_nil, h]
    | cons p l1 =>
      by_cases hp : p.tokType = .stringTokenType
      · cases l1 with
        | nil => simp [parser.login, match_cons, match_nil, h, hp]
        | cons e l2 =>
          by_cases he : e.tokType = .eolTokenType <;>
            simp [parser.login, match_cons, h, hp, he]
      · simp [parser.login, match_cons, h, hp]
  · simp [parser.login, match_cons, h]

theorem unknown_drain (tag cmd : String) (skipped : List token) (eol : token) (rest : lexer)
    (hs : ∀ t ∈ skipped, t.tokType ≠ .eolTokenType) (he : eol.tokType = .eolTokenType) :
    parser.unknown tag cmd (skipped ++ eol :: rest) = (.ok (.serveUnknownCommand tag cmd), rest) := by
  induction skipped with
  | nil => simp [parser.unknown, he]
  | cons t ts ih =>
    have ht : t.tokType ≠ .eolTokenType := hs t (List.mem_cons_self _ _)
    have hts : ∀ u ∈ ts, u.tokType ≠ .eolTokenType :=
      fun u hu => hs u (List.mem_cons_of_mem _ hu)
    simp only [List.cons_append, parser.unknown, ht, ne_eq, not_false_eq_true, if_true]
    exact ih hts

theorem unknown_ok (tag cmd : String) (l rest : lexer) (c : command)
    (h : parser.unknown tag cmd l = (.ok c, rest)) :
    c = .serveUnknownCommand tag cmd ∧
      ∃ skipped eol, l = skipped ++ eol :: rest ∧ eol.tokType = .eolTokenType ∧
        ∀ t ∈ skipped, t.tokType ≠ .eolTokenType := by
  induction l with
  | nil => simp [parser.unknown] at h
  | cons t ts ih =>
    by_cases ht : t.tokType = .eolTokenType
    · simp only [parser.unknown, ht, ne_eq, not_true_eq_false, if_false, Prod.mk.injEq,
        Except.ok.injEq] at h
      obtain ⟨rfl, rfl⟩ := h
      exact ⟨rfl, [], t, rfl, ht, by simp⟩
    · simp only [parser.unknown, ht, ne_eq, not_false_eq_true, if_true] at h
      obtain ⟨hc, skipped, eol, hl, he, hs⟩ := ih h
      refine ⟨hc, t :: skipped, eol, by simp [hl], he, ?_⟩
      intro u hu
      rcases List.mem_cons.mp hu with rfl | hu
      · exact ht
      · exact hs u hu

theorem unknown_error (tag cmd : String) (l : lexer) :
    (∃ c rest, parser.unknown tag cmd l = (.ok c, rest)) ∨
      parser.unknown tag cmd l = (.error .endOfInput, []) := by
  induction l with
  | nil => right; rfl
  | cons t ts ih =>
    by_cases ht : t.tokType = .eolTokenType
    · left; exact ⟨.serveUnknownCommand tag cmd, ts, by simp [parser.unknown, ht]⟩
    · simp only [parser.unknown, ht, ne_eq, not_false_eq_true, if_true]
      exact ih

/-- The dispatch of `parser.next` once the tag and the keyword have been read. -/
theorem next_cons (toLower : String → String) (t k : token) (l : lexer) :
    parser.next toLower (t :: k :: l) =
      if t.tokType = .stringTokenType then
        if k.tokType = .stringTokenType then
          if toLower k.value = "noop" then parser.noop t.value l
          else if toLower k.value = "capability" then parser.capability t.value l
          else if toLower k.value = "login" then parser.login t.value l
          else if toLower k.value = "logout" then parser.logout t.value l
          else if toLower k.value = "select" then parser.selectC t.value l
          else if toLower k.value = "list" then parser.list t.value l
          else if toLower k.value = "fetch" then parser.fetch t.value l
          else parser.unknown t.value k.value l
        else (.error (.unexpectedToken .stringTokenType k.tokType), l)
      else (.error (.unexpectedToken .stringTokenType t.tokType), k :: l) := by
  by_cases ht : t.tokType = .stringTokenType
  · by_cases hk : k.tokType = .stringTokenType <;> simp [parser.next, match_cons, ht, hk]
  · simp [parser.next, match_cons, ht]

theorem next_nil (toLower : String → String) :
    parser.next toLower [] = (.error .endOfInput, []) := rfl

theorem next_single (toLower : String → String) (t : token) :
    parser.next toLower [t] =
      if t.tokType = .stringTokenType then (.error .endOfInput, [])
      else (.error (.unexpectedToken .stringTokenType t.tokType), []) := by
  by_cases ht : t.tokType = .stringTokenType <;> simp [parser.next, match_cons, match_nil, ht]

theorem noop_ok (tag : String) (l rest : lexer) (c : command)
    (h : parser.noop tag l = (.ok c, rest)) :
    c = .serveNoopCommand tag ∧ ∃ e, l = e :: rest ∧ e.tokType = .eolTokenType := by
  cases l with
  | nil => simp [parser.noop, match_nil] at h
  | cons e l1 =>
    rw [noop_cons] at h
    split at h
    · rename_i he
      simp only [Prod.mk.injEq, Except.ok.injEq] at h
      exact ⟨h.1.symm, e, by rw [h.2], he⟩
    · simp at h

theorem capability_ok (tag : String) (l rest : lexer) (c : command)
    (h : parser.capability tag l = (.ok c, rest)) :
    c = .serveCapabilityCommand tag ∧ ∃ e, l = e :: rest ∧ e.tokType = .eolTokenType := by
  cases l with
  | nil => simp [parser.capability, match_nil] at h
  | cons e l1 =>
    rw [capability_cons] at h
    split at h
    · rename_i he
      simp only [Prod.mk.injEq, Except.ok.injEq] at h
      exact ⟨h.1.symm, e, by rw [h.2], he⟩
    · simp at h

theorem logout_ok (tag : String) (l rest : lexer) (c : command)
    (h : parser.logout tag l = (.ok c, rest)) :
    c = .serveLogoutCommand tag ∧ ∃ e, l = e :: rest ∧ e.tokType = .eolTokenType := by
  cases l with
  | nil => simp [parser.logout, match_nil] at h
  | cons e l1 =>
    rw [logout_cons] at h
    split at h
    · rename_i he
      simp only [Prod.mk.injEq, Except.ok.injEq] at h
      exact ⟨h.1.symm, e, by rw [h.2], he⟩
    · simp at h

theorem selectC_ok (tag : String) (l rest : lexer) (c : command)
    (h : parser.selectC tag l = (.ok c, rest)) :
    ∃ m e, l = m :: e :: rest ∧ m.tokType = .stringTokenType ∧ e.tokType = .eolTokenType ∧
      c = .serveSelectCommand tag m.value := by
  cases l with
  | nil => simp [parser.selectC, match_nil] at h
  | cons m l1 =>
    rw [selectC_cons] at h
    split at h
    · rename_i hm
      cases l1 with
      | nil => simp at h
      | cons e l2 =>
        simp only at h
        split at h
        · rename_i he
          simp only [Prod.mk.injEq, Except.ok.injEq] at h
          exact ⟨m, e, by rw [h.2], hm, he, h.1.symm⟩
        · simp at h
    · simp at h

theorem login_ok (tag : String) (l rest : lexer) (c : command)
    (h : parser.login tag l = (.ok c, rest)) :
    ∃ u p e, l = u :: p :: e :: rest ∧ u.tokType = .stringTokenType ∧
      p.tokType = .stringTokenType ∧ e.tokType = .eolTokenType ∧
      c = .serveLoginCommand tag u.value p.value := by
  cases l with
  | nil => simp [parser.login, match_nil] at h
  | cons u l1 =>
    rw [login_cons] at h
    split at h
    · rename_i hu
      cases l1 with
      | nil => simp at h
      | cons p l2 =>
        simp only at h
        split at h
        · rename_i hp
          cases l2 with
          | nil => simp at h
          | cons e l3 =>
            simp only at h
            split at h
            · rename_i he
              simp only [Prod.mk.injEq, Except.ok.injEq] at h
              exact ⟨u, p, e, by rw [h.2], hu, hp, he, h.1.symm⟩
            · simp at h
        · simp at h
    · simp at h

/-- Whatever `parser.next` returns carries the value of the first token as its tag. -/
theorem next_ok_tag (toLower : String → String) (l rest : lexer) (c : command)
    (h : parser.next toLower l = (.ok c, rest)) :
    ∃ t l1, l = t :: l1 ∧ c.tag = t.value := by
  cases l with
  | nil => simp [next_nil] at h
  | cons t l1 =>
    refine ⟨t, l1, rfl, ?_⟩
    cases l1 with
    | nil =>
      rw [next_single] at h
      split at h <;> simp at h
    | cons k l2 =>
      rw [next_cons] at h
      split at h
      · split at h
        · split at h
          · rw [(noop_ok _ _ _ _ h).1]; rfl
          · split at h
            · rw [(capability_ok _ _ _ _ h).1]; rfl
            · split at h
              · obtain ⟨u, p, e, -, -, -, -, hc⟩ := login_ok _ _ _ _ h
                rw [hc]; rfl
              · split at h
                · rw [(logout_ok _ _ _ _ h).1]; rfl
                · split at h
                  · obtain ⟨m, e, -, -, -, hc⟩ := selectC_ok _ _ _ _ h
                    rw [hc]; rfl
                  · split at h
                    · simp only [parser.list, Prod.mk.injEq, Except.ok.injEq] at h
                      rw [← h.1]; rfl
                    · split at h
                      · simp only [parser.fetch, Prod.mk.injEq, Except.ok.injEq] at h
                        rw [← h.1]; rfl
                      · rw [(unknown_ok _ _ _ _ _ h).1]; rfl
        · simp at h
      · simp at h

/-! ## The claims -/

/-- A request line `a1 LOGIN user pass`. -/
def loginLine : lexer :=
  [⟨.stringTokenType, "a1"⟩, ⟨.stringTokenType, "LOGIN"⟩, ⟨.stringTokenType, "user"⟩,
    ⟨.stringTokenType, "pass"⟩, ⟨.eolTokenType, ""⟩]

/-- C1: whenever `parser.next` returns a command from a token stream, the response
of executing that command, on any session and with any mailbox store, carries as
its tag the value of the first token of the stream. -/
theorem response_tag_is_first_token (toLower : String → String) (store : mailstore)
    (l rest : lexer) (c : command) (sess : session)
    (h : parser.next toLower l = (.ok c, rest)) :
    ∃ tagToken l1, l = tagToken :: l1 ∧ (c.execute store sess).1.tag = tagToken.value := by
  obtain ⟨t, l1, hl, ht⟩ := next_ok_tag toLower l rest c h
  exact ⟨t, l1, hl, by rw [execute_tag, ht]⟩

theorem response_tag_is_first_token_witness :
    parser.next asciiLower loginLine = (.ok (.serveLoginCommand "a1" "user" "pass"), []) ∧
    ∃ tagToken l1, loginLine = tagToken :: l1 ∧
      ((command.serveLoginCommand "a1" "user" "pass").execute inboxStore freshSession).1.tag
        = tagToken.value :=
  ⟨by decide,
    response_tag_is_first_token asciiLower inboxStore loginLine []
      (.serveLoginCommand "a1" "user" "pass") freshSession (by decide)⟩

/-- C2: from a NotAuthenticated session, a first LOGIN answers OK and leaves the
session Authenticated; a second LOGIN, with any credentials, answers BAD with a
message containing "already logged in" and the session stays Authenticated. -/
theorem login_twice (tag1 userId1 password1 tag2 userId2 password2 : String)
    (sess : session) (h : sess.st = .notAuthenticated) :
    (serveLoginCommand.execute tag1 userId1 password1 sess).1.status = .OK ∧
    (serveLoginCommand.execute tag1 userId1 password1 sess).2.st = .authenticated ∧
    (serveLoginCommand.execute tag2 userId2 password2
      (serveLoginCommand.execute tag1 userId1 password1 sess).2).1.status = .BAD ∧
    occursIn "already logged in"
      (serveLoginCommand.execute tag2 userId2 password2
        (serveLoginCommand.execute tag1 userId1 password1 sess).2).1.message ∧
    (serveLoginCommand.execute tag2 userId2 password2
      (serveLoginCommand.execute tag1 userId1 password1 sess).2).2.st = .authenticated := by
  have h1 : serveLoginCommand.execute tag1 userId1 password1 sess =
      (ok tag1 "LOGIN completed", { sess with st := .authenticated }) := by
    simp [serveLoginCommand.execute, h]
  have h2 : ∀ s : session, s.st = .authenticated →
      serveLoginCommand.execute tag2 userId2 password2 s =
        (bad tag2 "LOGIN already logged in", s.log "LOGIN already logged in") := by
    intro s hs
    simp [serveLoginCommand.execute, hs]
  rw [h1, h2 _ rfl]
  refine ⟨rfl, rfl, rfl, ?_, rfl⟩
  show "already logged in".data <:+: "LOGIN already logged in".data
  decide

theorem login_twice_witness :
    freshSession.st = .notAuthenticated ∧
    (serveLoginCommand.execute "a1" "user" "pass" freshSession).1.status = .OK ∧
    (serveLoginCommand.execute "a1" "user" "pass" freshSession).2.st = .authenticated ∧
    (serveLoginCommand.execute "a2" "root" "secret"
      (serveLoginCommand.execute "a1" "user" "pass" freshSession).2).1.status = .BAD ∧
    occursIn "already logged in"
      (serveLoginCommand.execute "a2" "root" "secret"
        (serveLoginCommand.execute "a1" "user" "pass" freshSession).2).1.message ∧
    (serveLoginCommand.execute "a2" "root" "secret"
      (serveLoginCommand.execute "a1" "user" "pass" freshSession).2).2.st = .authenticated :=
  ⟨rfl, login_twice "a1" "user" "pass" "a2" "root" "secret" freshSession rfl⟩

/-- C3: SELECT on a NotAuthenticated session, for every mailbox name, tag and
mailbox store, answers BAD with a message containing "not authenticated" and
leaves the authentication state as it was. -/
theorem select_before_login (store : mailstore) (tag mailbox : String) (sess : session)
    (h : sess.st = .notAuthenticated) :
    (serveSelectCommand.execute store tag mailbox sess).1.status = .BAD ∧
    occursIn "not authenticated" (serveSelectCommand.execute store tag mailbox sess).1.message ∧
    (serveSelectCommand.execute store tag mailbox sess).2.st = sess.st := by
  have hne : sess.st ≠ .authenticated := by rw [h]; decide
  rw [select_notAuthenticated store tag mailbox sess hne]
  refine ⟨rfl, ?_, rfl⟩
  show "not authenticated".data <:+: "SELECT not authenticated".data
  decide

theorem select_before_login_witness :
    freshSession.st = .notAuthenticated ∧
    (serveSelectCommand.execute inboxStore "a1" "INBOX" freshSession).1.status = .BAD ∧
    occursIn "not authenticated"
      (serveSelectCommand.execute inboxStore "a1" "INBOX" freshSession).1.message ∧
    (serveSelectCommand.execute inboxStore "a1" "INBOX" freshSession).2.st = freshSession.st :=
  ⟨rfl, select_before_login inboxStore "a1" "INBOX" freshSession rfl⟩

/-- C4: LOGOUT, in every session state and for every tag, answers OK with the
message "LOGOUT completed", the single untagged line "BYE IMAP4rev1 Server
logging out" and the close flag set, and leaves the session NotAuthenticated. -/
theorem logout_any_state (tag : String) (sess : session) :
    (serveLogoutCommand.execute tag sess).1.status = .OK ∧
    (serveLogoutCommand.execute tag sess).1.message = "LOGOUT completed" ∧
    (serveLogoutCommand.execute tag sess).1.extraLines = ["BYE IMAP4rev1 Server logging out"] ∧
    (serveLogoutCommand.execute tag sess).1.closeConnection = true ∧
    (serveLogoutCommand.execute tag sess).2.st = .notAuthenticated := by
  refine ⟨rfl, rfl, ?_, rfl, rfl⟩
  simp [serveLogoutCommand.execute, ok, serverResponse.extra, serverResponse.shouldClose]

/-- When the lowercase keyword is none of the seven keywords, `parser.next` hands
the rest of the line to `parser.unknown`. -/
theorem next_unknown (toLower : String → String) (tag kw : String) (l : lexer)
    (hkw : toLower kw ∉ keywords) :
    parser.next toLower (⟨.stringTokenType, tag⟩ :: ⟨.stringTokenType, kw⟩ :: l) =
      parser.unknown tag kw l := by
  simp only [keywords, List.mem_cons, List.mem_singleton, List.not_mem_nil, or_false,
    not_or] at hkw
  obtain ⟨h1, h2, h3, h4, h5, h6, h7⟩ := hkw
  rw [next_cons]
  simp [h1, h2, h3, h4, h5, h6, h7]

/-- C5: on a stream `tag kw t1 .. tn EOL rest` whose keyword is none of the seven
recognized ones after lowercasing and whose `t1 .. tn` contain no end-of-line
token, `parser.next` returns the UNKNOWN command with the raw keyword and leaves
exactly `rest` in the lexer, so the following call behaves as on `rest` alone. -/
theorem unknown_drains_line (toLower : String → String) (tag kw : String)
    (skipped : List token) (eol : token) (rest : lexer)
    (hkw : toLower kw ∉ keywords)
    (hs : ∀ t ∈ skipped, t.tokType ≠ .eolTokenType) (he : eol.tokType = .eolTokenType) :
    parser.next toLower
        (⟨.stringTokenType, tag⟩ :: ⟨.stringTokenType, kw⟩ :: (skipped ++ eol :: rest)) =
      (.ok (.serveUnknownCommand tag kw), rest) ∧
    parser.next toLower
        (parser.next toLower
          (⟨.stringTokenType, tag⟩ :: ⟨.stringTokenType, kw⟩ :: (skipped ++ eol :: rest))).2 =
      parser.next toLower rest := by
  have h : parser.next toLower
      (⟨.stringTokenType, tag⟩ :: ⟨.stringTokenType, kw⟩ :: (skipped ++ eol :: rest)) =
      (.ok (.serveUnknownCommand tag kw), rest) := by
    rw [next_unknown toLower tag kw _ hkw]
    exact unknown_drain tag kw skipped eol rest hs he
  exact ⟨h, by rw [h]⟩

/-- A request line `a1 STATUS INBOX (MESSAGES)` followed by `a2 NOOP`. -/
def statusThenNoop : lexer :=
  [⟨.stringTokenType, "a1"⟩, ⟨.stringTokenType, "STATUS"⟩, ⟨.stringTokenType, "INBOX"⟩,
    ⟨.stringTokenType, "(MESSAGES)"⟩, ⟨.eolTokenType, ""⟩,
    ⟨.stringTokenType, "a2"⟩, ⟨.stringTokenType, "NOOP"⟩, ⟨.eolTokenType, ""⟩]

theorem unknown_drains_line_witness :
    parser.next asciiLower statusThenNoop =
      (.ok (.serveUnknownCommand "a1" "STATUS"),
        [⟨.stringTokenType, "a2"⟩, ⟨.stringTokenType, "NOOP"⟩, ⟨.eolTokenType, ""⟩]) ∧
    parser.next asciiLower (parser.next asciiLower statusThenNoop).2 =
      parser.next asciiLower
        [⟨.stringTokenType, "a2"⟩, ⟨.stringTokenType, "NOOP"⟩, ⟨.eolTokenType, ""⟩] :=
  unknown_drains_line asciiLower "a1" "STATUS"
    [⟨.stringTokenType, "INBOX"⟩, ⟨.stringTokenType, "(MESSAGES)"⟩] ⟨.eolTokenType, ""⟩
    [⟨.stringTokenType, "a2"⟩, ⟨.stringTokenType, "NOOP"⟩, ⟨.eolTokenType, ""⟩]
    (by decide) (by decide) rfl

/-- A request line `a1 LIST` followed by `a2 NOOP`. -/
def listThenNoop : lexer :=
  [⟨.stringTokenType, "a1"⟩, ⟨.stringTokenType, "LIST"⟩, ⟨.eolTokenType, ""⟩,
    ⟨.stringTokenType, "a2"⟩, ⟨.stringTokenType, "NOOP"⟩, ⟨.eolTokenType, ""⟩]

/-- C6, at the request lines `a1 LIST` and `a2 NOOP`: `parser.next` returns the
LIST command having consumed the tag and the keyword only, the end-of-line
token of the LIST line stays in the lexer, and the next call fails on it instead
of parsing `a2 NOOP`. -/
theorem list_leaves_line_unread :
    parser.next asciiLower listThenNoop =
      (.ok (.serveListCommand "a1"),
        [⟨.eolTokenType, ""⟩, ⟨.stringTokenType, "a2"⟩, ⟨.stringTokenType, "NOOP"⟩,
          ⟨.eolTokenType, ""⟩]) ∧
    parser.next asciiLower (parser.next asciiLower listThenNoop).2 =
      (.error (.unexpectedToken .stringTokenType .eolTokenType),
        [⟨.stringTokenType, "a2"⟩, ⟨.stringTokenType, "NOOP"⟩, ⟨.eolTokenType, ""⟩]) := by
  decide

/-- C7: two keyword tokens of the same kind whose values have the same lowercase
form, one of the seven keywords, give the same outcome of `parser.next` in second
position of any stream: the same command (or the same failure) and the same
number of tokens left, hence the same number consumed; once the tag has been
read the remaining tokens are the same ones. -/
theorem keyword_case_insensitive (toLower : String → String) (tagToken k1 k2 : token)
    (l : lexer) (hk : k1.tokType = k2.tokType)
    (hlc : toLower k1.value = toLower k2.value) (hkw : toLower k1.value ∈ keywords) :
    (parser.next toLower (tagToken :: k1 :: l)).1 =
      (parser.next toLower (tagToken :: k2 :: l)).1 ∧
    (parser.next toLower (tagToken :: k1 :: l)).2.length =
      (parser.next toLower (tagToken :: k2 :: l)).2.length ∧
    (tagToken.tokType = .stringTokenType →
      parser.next toLower (tagToken :: k1 :: l) = parser.next toLower (tagToken :: k2 :: l)) := by
  rw [next_cons, next_cons, hk, ← hlc]
  simp only [keywords, List.mem_cons, List.mem_singleton, List.not_mem_nil, or_false] at hkw
  by_cases ht : tagToken.tokType = .stringTokenType
  · have heq : ∀ a b : parsed command, a = b →
        a.1 = b.1 ∧ a.2.length = b.2.length ∧
          (tagToken.tokType = .stringTokenType → a = b) :=
      fun a b hab => by subst hab; exact ⟨rfl, rfl, fun _ => rfl⟩
    apply heq
    simp only [ht, if_true]
    split
    · rcases hkw with h | h | h | h | h | h | h <;> simp [h]
    · rfl
  · simp [ht]

theorem keyword_case_insensitive_witness :
    (parser.next asciiLower
        (⟨.stringTokenType, "a1"⟩ :: ⟨.stringTokenType, "LoGiN"⟩ ::
          [⟨.stringTokenType, "user"⟩, ⟨.stringTokenType, "pass"⟩, ⟨.eolTokenType, ""⟩])).1 =
      (parser.next asciiLower
        (⟨.stringTokenType, "a1"⟩ :: ⟨.stringTokenType, "login"⟩ ::
          [⟨.stringTokenType, "user"⟩, ⟨.stringTokenType, "pass"⟩, ⟨.eolTokenType, ""⟩])).1 :=
  (keyword_case_insensitive asciiLower ⟨.stringTokenType, "a1"⟩ ⟨.stringTokenType, "LoGiN"⟩
    ⟨.stringTokenType, "login"⟩ _ rfl (by decide) (by decide)).1

/-- C8: on `t k u p EOL ..` with `k` lowercasing to "login", `parser.next` returns
LOGIN with tag `t`, user id `u` and password `p`; on `t k m EOL ..` with `k`
lowercasing to "select" it returns SELECT with tag `t` and mailbox `m`; the
fields are the token values themselves and only the line is consumed. -/
theorem arguments_verbatim (toLower : String → String) (t kLogin kSelect u p m : String)
    (eol : token) (rest : lexer) (he : eol.tokType = .eolTokenType)
    (hl : toLower kLogin = "login") (hs : toLower kSelect = "select") :
    parser.next toLower
        (⟨.stringTokenType, t⟩ :: ⟨.stringTokenType, kLogin⟩ :: ⟨.stringTokenType, u⟩ ::
          ⟨.stringTokenType, p⟩ :: eol :: rest) =
      (.ok (.serveLoginCommand t u p), rest) ∧
    parser.next toLower
        (⟨.stringTokenType, t⟩ :: ⟨.stringTokenType, kSelect⟩ :: ⟨.stringTokenType, m⟩ ::
          eol :: rest) =
      (.ok (.serveSelectCommand t m), rest) := by
  constructor
  · rw [next_cons, login_cons]
    simp [hl, he]
  · rw [next_cons, selectC_cons]
    simp [hs, he]

theorem arguments_verbatim_witness :
    parser.next asciiLower
        (⟨.stringTokenType, "a1"⟩ :: ⟨.stringTokenType, "Login"⟩ ::
          ⟨.stringTokenType, "Alice"⟩ :: ⟨.stringTokenType, " PaSs "⟩ ::
          ⟨.eolTokenType, ""⟩ :: []) =
      (.ok (.serveLoginCommand "a1" "Alice" " PaSs "), []) ∧
    parser.next asciiLower
        (⟨.stringTokenType, "a1"⟩ :: ⟨.stringTokenType, "SELECT"⟩ ::
          ⟨.stringTokenType, "Drafts/2016"⟩ :: ⟨.eolTokenType, ""⟩ :: []) =
      (.ok (.serveSelectCommand "a1" "Drafts/2016"), []) :=
  arguments_verbatim asciiLower "a1" "Login" "SELECT" "Alice" " PaSs " "Drafts/2016"
    ⟨.eolTokenType, ""⟩ [] rfl (by decide) (by decide)

/-- C10: on an Authenticated session SELECT answers according to the mailbox
store: a failing `selectMailbox` gives NO with the close flag set; an absent
mailbox gives NO with a message containing "No such mailbox" and the close flag
clear; a present mailbox gives OK "SELECT completed" with the close flag clear
when `addMailboxInfo` succeeds, and NO with the close flag set when it fails. -/
theorem select_authenticated_outcome (store : mailstore) (tag mailbox : String)
    (sess : session) (h : sess.st = .authenticated) :
    (∀ err, store.selectMailbox mailbox = .error err →
      (serveSelectCommand.execute store tag mailbox sess).1.status = .NO ∧
      (serveSelectCommand.execute store tag mailbox sess).1.closeConnection = true) ∧
    (store.selectMailbox mailbox = .ok false →
      (serveSelectCommand.execute store tag mailbox sess).1.status = .NO ∧
      occursIn "No such mailbox" (serveSelectCommand.execute store tag mailbox sess).1.message ∧
      (serveSelectCommand.execute store tag mailbox sess).1.closeConnection = false) ∧
    (store.selectMailbox mailbox = .ok true →
      (∀ lines, store.addMailboxInfo (some mailbox) (ok tag "SELECT completed") = .ok lines →
        (serveSelectCommand.execute store tag mailbox sess).1.status = .OK ∧
        (serveSelectCommand.execute store tag mailbox sess).1.message = "SELECT completed" ∧
        (serveSelectCommand.execute store tag mailbox sess).1.closeConnection = false) ∧
      (∀ err, store.addMailboxInfo (some mailbox) (ok tag "SELECT completed") = .error err →
        (serveSelectCommand.execute store tag mailbox sess).1.status = .NO ∧
        (serveSelectCommand.execute store tag mailbox sess).1.closeConnection = true)) := by
  refine ⟨?_, ?_, ?_⟩
  · intro err hs
    rw [select_lookup_error store tag mailbox err sess h hs]
    exact ⟨rfl, rfl⟩
  · intro hs
    rw [select_absent store tag mailbox sess h hs]
    refine ⟨rfl, ?_, rfl⟩
    show "No such mailbox".data <:+: "SELECT No such mailbox".data
    decide
  · intro hs
    constructor
    · intro lines hi
      rw [select_present store tag mailbox lines sess h hs hi]
      obtain ⟨-, h2, h3, h4⟩ := foldl_extra_fields lines (ok tag "SELECT completed")
      exact ⟨h2, h3, h4⟩
    · intro err hi
      rw [select_info_error store tag mailbox err sess h hs hi]
      exact ⟨rfl, rfl⟩

theorem select_authenticated_outcome_witness :
    authSession.st = .authenticated ∧
    (serveSelectCommand.execute inboxStore "a2" "INBOX" authSession).1.status = .OK ∧
    (serveSelectCommand.execute inboxStore "a2" "INBOX" authSession).1.message
      = "SELECT completed" ∧
    (serveSelectCommand.execute inboxStore "a2" "INBOX" authSession).1.closeConnection = false :=
  ⟨rfl, ((select_authenticated_outcome inboxStore "a2" "INBOX" authSession rfl).2.2
    (by decide)).1 ["1 EXISTS"] rfl⟩

theorem terminated_single (t : token) : terminated [t] ↔ t.tokType = .eolTokenType := by
  simp [terminated]

theorem terminated_cons (t u : token) (l : lexer) :
    terminated (t :: u :: l) ↔ terminated (u :: l) := by
  simp [terminated, List.getLast?_cons_cons]

/-- On a stream of complete lines `parser.unknown` finds its end-of-line token. -/
theorem unknown_terminated (tag cmd : String) (l : lexer) (h : terminated l) :
    ∃ c rest, parser.unknown tag cmd l = (.ok c, rest) := by
  induction l with
  | nil => simp [terminated] at h
  | cons t ts ih =>
    by_cases ht : t.tokType = .eolTokenType
    · exact ⟨.serveUnknownCommand tag cmd, ts, by simp [parser.unknown, ht]⟩
    · simp only [parser.unknown, ht, ne_eq, not_false_eq_true, if_true]
      cases ts with
      | nil => exact absurd ((terminated_single t).mp h) ht
      | cons u us => exact ih ((terminated_cons t u us).mp h)

/-- A request line `a1 NOOP extra`, a recognized command with a surplus argument. -/
def noopSurplus : lexer :=
  [⟨.stringTokenType, "a1"⟩, ⟨.stringTokenType, "NOOP"⟩, ⟨.stringTokenType, "extra"⟩,
    ⟨.eolTokenType, ""⟩]

/-- C9: on a stream of complete lines `parser.next` panics in `parser.match`
exactly when the failure condition of the specification holds, and returns a
command in every other case. -/
theorem next_fails_iff (toLower : String → String) (l : lexer) (hwf : terminated l) :
    ((∃ expected actual,
        (parser.next toLower l).1 = .error (.unexpectedToken expected actual)) ↔
      failsBySpec toLower l) ∧
    (¬ failsBySpec toLower l → ∃ c, (parser.next toLower l).1 = .ok c) := by
  rcases l with _ | ⟨t, l1⟩
  · simp [terminated] at hwf
  rcases l1 with _ | ⟨k, l2⟩
  · have ht : t.tokType = .eolTokenType := (terminated_single t).mp hwf
    simp [next_single, failsBySpec, kindAt, ht]
  by_cases ht : t.tokType = .stringTokenType
  swap
  · simp [next_cons, failsBySpec, kindAt, ht]
  by_cases hk : k.tokType = .stringTokenType
  swap
  · simp [next_cons, failsBySpec, kindAt, ht, hk]
  rcases l2 with _ | ⟨a, l3⟩
  · have hk2 : k.tokType = .eolTokenType :=
      (terminated_single k).mp ((terminated_cons t k []).mp hwf)
    rw [hk2] at hk
    cases hk
  have hwf3 : terminated (a :: l3) :=
    (terminated_cons k a l3).mp ((terminated_cons t k (a :: l3)).mp hwf)
  rw [next_cons]
  simp only [ht, hk, if_true]
  by_cases h1 : toLower k.value = "noop"
  · simp only [h1, if_true]
    rw [noop_cons]
    by_cases ha : a.tokType = .eolTokenType <;>
      simp [failsBySpec, kindAt, keywordAt, ht, hk, h1, ha]
  by_cases h2 : toLower k.value = "capability"
  · simp only [h2, if_true]
    rw [capability_cons]
    by_cases ha : a.tokType = .eolTokenType <;>
      simp [failsBySpec, kindAt, keywordAt, ht, hk, h2, ha]
  by_cases h3 : toLower k.value = "login"
  · simp only [h3, if_true]
    rw [login_cons]
    by_cases ha : a.tokType = .stringTokenType
    swap
    · simp [failsBySpec, kindAt, keywordAt, ht, hk, h3, ha]
    rcases l3 with _ | ⟨b, l4⟩
    · rw [(terminated_single a).mp hwf3] at ha
      cases ha
    have hwf4 : terminated (b :: l4) := (terminated_cons a b l4).mp hwf3
    by_cases hb : b.tokType = .stringTokenType
    swap
    · simp [failsBySpec, kindAt, keywordAt, ht, hk, h3, ha, hb]
    rcases l4 with _ | ⟨c, l5⟩
    · rw [(terminated_single b).mp hwf4] at hb
      cases hb
    by_cases hc : c.tokType = .eolTokenType <;>
      simp [failsBySpec, kindAt, keywordAt, ht, hk, h3, ha, hb, hc]
  by_cases h4 : toLower k.value = "logout"
  · simp only [h4, if_true]
    rw [logout_cons]
    by_cases ha : a.tokType = .eolTokenType <;>
      simp [failsBySpec, kindAt, keywordAt, ht, hk, h4, ha]
  by_cases h5 : toLower k.value = "select"
  · simp only [h5, if_true]
    rw [selectC_cons]
    by_cases ha : a.tokType = .stringTokenType
    swap
    · simp [failsBySpec, kindAt, keywordAt, ht, hk, h5, ha]
    rcases l3 with _ | ⟨b, l4⟩
    · rw [(terminated_single a).mp hwf3] at ha
      cases ha
    by_cases hb : b.tokType = .eolTokenType <;>
      simp [failsBySpec, kindAt, keywordAt, ht, hk, h5, ha, hb]
  have hno : ¬ failsBySpec toLower (t :: k :: a :: l3) := by
    simp [failsBySpec, kindAt, keywordAt, ht, hk, h1, h2, h3, h4, h5]
  simp only [h1, h2, h3, h4, h5, if_false]
  have hok : ∃ c, (if toLower k.value = "list" then parser.list t.value (a :: l3)
      else if toLower k.value = "fetch" then parser.fetch t.value (a :: l3)
      else parser.unknown t.value k.value (a :: l3)).1 = .ok c := by
    by_cases h6 : toLower k.value = "list"
    · exact ⟨.serveListCommand t.value, by simp [h6, parser.list]⟩
    by_cases h7 : toLower k.value = "fetch"
    · exact ⟨.serveFetchCommand t.value "" "", by simp [h6, h7, parser.fetch]⟩
    obtain ⟨c, rest, hc⟩ := unknown_terminated t.value k.value (a :: l3) hwf3
    exact ⟨c, by simp [h6, h7, hc]⟩
  obtain ⟨c, hc⟩ := hok
  refine ⟨⟨?_, fun hf => absurd hf hno⟩, fun _ => ⟨c, hc⟩⟩
  rintro ⟨e1, e2, he⟩
  rw [hc] at he
  cases he

theorem next_fails_iff_witness :
    terminated noopSurplus ∧ failsBySpec asciiLower noopSurplus ∧
    ∃ expected actual,
      (parser.next asciiLower noopSurplus).1 = .error (.unexpectedToken expected actual) :=
  ⟨by decide, by decide,
    (next_fails_iff asciiLower noopSurplus (by decide)).1.mpr (by decide)⟩

/-- C12: CAPABILITY, in every session state and for every tag, answers OK with
exactly one untagged line, "CAPABILITY IMAP4rev1", the close flag clear, and
returns the session as it was. -/
theorem capability_any_state (tag : String) (sess : session) :
    (serveCapabilityCommand.execute tag sess).1.status = .OK ∧
    (serveCapabilityCommand.execute tag sess).1.extraLines = ["CAPABILITY IMAP4rev1"] ∧
    (serveCapabilityCommand.execute tag sess).1.closeConnection = false ∧
    (serveCapabilityCommand.execute tag sess).2 = sess := by
  refine ⟨rfl, ?_, rfl, rfl⟩
  simp [serveCapabilityCommand.execute, ok, serverResponse.extra]

/-- LOGIN on a NotAuthenticated session. -/
theorem login_notAuthenticated (tag userId password : String) (sess : session)
    (h : sess.st = .notAuthenticated) :
    serveLoginCommand.execute tag userId password sess =
      (ok tag "LOGIN completed", { sess with st := .authenticated }) := by
  simp [serveLoginCommand.execute, h]

/-- LOGIN on a session that is not NotAuthenticated. -/
theorem login_authenticated (tag userId password : String) (sess : session)
    (h : sess.st ≠ .notAuthenticated) :
    serveLoginCommand.execute tag userId password sess =
      (bad tag "LOGIN already logged in", sess.log "LOGIN already logged in") := by
  simp [serveLoginCommand.execute, h]

/-- C13: LOGIN on a NotAuthenticated session, with any user id, password and
tag, answers OK "LOGIN completed" and leaves the session Authenticated; and in
no state does LOGIN answer NO. -/
theorem login_never_fails (tag userId password : String) (sess : session) :
    (sess.st = .notAuthenticated →
      (serveLoginCommand.execute tag userId password sess).1.status = .OK ∧
      (serveLoginCommand.execute tag userId password sess).1.message = "LOGIN completed" ∧
      (serveLoginCommand.execute tag userId password sess).2.st = .authenticated) ∧
    (serveLoginCommand.execute tag userId password sess).1.status ≠ .NO := by
  constructor
  · intro h
    rw [login_notAuthenticated tag userId password sess h]
    exact ⟨rfl, rfl, rfl⟩
  · by_cases h : sess.st = .notAuthenticated
    · rw [login_notAuthenticated tag userId password sess h]
      simp [ok]
    · rw [login_authenticated tag userId password sess h]
      simp [bad]

theorem login_never_fails_witness :
    (serveLoginCommand.execute "a1" "nobody" "wrong" freshSession).1.status = .OK ∧
    (serveLoginCommand.execute "a1" "nobody" "wrong" freshSession).1.message
      = "LOGIN completed" ∧
    (serveLoginCommand.execute "a1" "nobody" "wrong" freshSession).2.st = .authenticated :=
  (login_never_fails "a1" "nobody" "wrong" freshSession).1 rfl

/-- C14: the close flag of a response is set exactly when the command is LOGOUT,
or it is SELECT executed while Authenticated and the mailbox store returned an
error; LOGIN while Authenticated and SELECT while NotAuthenticated leave it
clear. -/
theorem close_flag_iff (store : mailstore) (c : command) (sess : session) :
    ((c.execute store sess).1.closeConnection = true ↔
      (∃ tag, c = .serveLogoutCommand tag) ∨
      (∃ tag mailbox, c = .serveSelectCommand tag mailbox ∧ sess.st = .authenticated ∧
        storeErrs store tag mailbox)) ∧
    (∀ tag userId password, sess.st = .authenticated →
      (serveLoginCommand.execute tag userId password sess).1.closeConnection = false) ∧
    (∀ tag mailbox, sess.st = .notAuthenticated →
      (serveSelectCommand.execute store tag mailbox sess).1.closeConnection = false) := by
  refine ⟨?_, ?_, ?_⟩
  · cases c with
    | serveNoopCommand tag => simp [command.execute, serveNoopCommand.execute, ok]
    | serveCapabilityCommand tag =>
      simp [command.execute, serveCapabilityCommand.execute, ok, serverResponse.extra]
    | serveLoginCommand tag u p =>
      by_cases h : sess.st = .notAuthenticated
      · simp [command.execute, login_notAuthenticated tag u p sess h, ok]
      · simp [command.execute, login_authenticated tag u p sess h, bad]
    | serveLogoutCommand tag =>
      simp [command.execute, serveLogoutCommand.execute, serverResponse.shouldClose]
    | serveListCommand tag => simp [command.execute, serveListCommand.execute, bad]
    | serveFetchCommand tag seq dat => simp [command.execute, serveFetchCommand.execute, bad]
    | serveUnknownCommand tag cmd => simp [command.execute, serveUnknownCommand.execute, bad]
    | serveSelectCommand tag mailbox =>
      simp only [command.execute, command.serveSelectCommand.injEq, reduceCtorEq, exists_false,
        false_or]
      by_cases h : sess.st = .authenticated
      · match hs : store.selectMailbox mailbox with
        | .error err =>
          rw [select_lookup_error store tag mailbox err sess h hs]
          simp only [internalError, serverResponse.shouldClose, true_iff]
          exact ⟨tag, mailbox, ⟨rfl, rfl⟩, h, Or.inl ⟨err, hs⟩⟩
        | .ok false =>
          rw [select_absent store tag mailbox sess h hs]
          simp only [no, Bool.false_eq_true, false_iff]
          rintro ⟨tag1, mailbox1, ⟨rfl, rfl⟩, -, he | he⟩
          · obtain ⟨err, he⟩ := he
            rw [hs] at he
            cases he
          · rw [hs] at he
            simp at he
        | .ok true =>
          match hi : store.addMailboxInfo (some mailbox) (ok tag "SELECT completed") with
          | .error err =>
            rw [select_info_error store tag mailbox err sess h hs hi]
            simp only [internalError, serverResponse.shouldClose, true_iff]
            exact ⟨tag, mailbox, ⟨rfl, rfl⟩, h, Or.inr ⟨hs, err, hi⟩⟩
          | .ok lines =>
            rw [select_present store tag mailbox lines sess h hs hi]
            rw [(foldl_extra_fields lines (ok tag "SELECT completed")).2.2.2]
            simp only [ok, Bool.false_eq_true, false_iff]
            rintro ⟨tag1, mailbox1, ⟨rfl, rfl⟩, -, he | he⟩
            · obtain ⟨err, he⟩ := he
              rw [hs] at he
              cases he
            · obtain ⟨-, err, he⟩ := he
              rw [hi] at he
              cases he
      · rw [select_notAuthenticated store tag mailbox sess h]
        simp only [bad, Bool.false_eq_true, false_iff]
        rintro ⟨tag1, mailbox1, -, ha, -⟩
        exact h ha
  · intro tag u p h
    have hne : sess.st ≠ .notAuthenticated := by rw [h]; decide
    rw [login_authenticated tag u p sess hne]
    rfl
  · intro tag mailbox h
    have hne : sess.st ≠ .authenticated := by rw [h]; decide
    rw [select_notAuthenticated store tag mailbox sess hne]
    rfl

theorem close_flag_iff_witness :
    ((command.serveSelectCommand "a2" "INBOX").execute halfBrokenStore authSession).1.closeConnection
      = true ∧
    (serveLoginCommand.execute "a3" "user" "pass" authSession).1.closeConnection = false ∧
    (serveSelectCommand.execute halfBrokenStore "a1" "INBOX" freshSession).1.closeConnection
      = false :=
  ⟨(close_flag_iff halfBrokenStore (.serveSelectCommand "a2" "INBOX") authSession).1.mpr
      (Or.inr ⟨"a2", "INBOX", rfl, rfl, Or.inr ⟨by decide, "summary unreadable", rfl⟩⟩),
    (close_flag_iff halfBrokenStore (.serveSelectCommand "a2" "INBOX") authSession).2.1
      "a3" "user" "pass" rfl,
    (close_flag_iff halfBrokenStore (.serveSelectCommand "a2" "INBOX") freshSession).2.2
      "a1" "INBOX" rfl⟩

/-- C15: NOOP, CAPABILITY, LIST, FETCH and UNKNOWN leave the authentication state
and the selected mailbox of every session as they were, only append to what was
logged, and answer without reading the session; NOOP always answers OK. -/
theorem quiet_commands_frame (store : mailstore) (c : command) (sess : session)
    (hc : c.isQuiet = true) :
    (c.execute store sess).2.st = sess.st ∧
    (c.execute store sess).2.mailbox = sess.mailbox ∧
    (∃ messages, (c.execute store sess).2.logged = sess.logged ++ messages) ∧
    (∀ other : session, (c.execute store other).1 = (c.execute store sess).1) ∧
    (∀ tag, (serveNoopCommand.execute tag sess).1.status = .OK) := by
  cases c with
  | serveNoopCommand tag => exact ⟨rfl, rfl, ⟨[], by simp [command.execute,
      serveNoopCommand.execute]⟩, fun _ => rfl, fun _ => rfl⟩
  | serveCapabilityCommand tag => exact ⟨rfl, rfl, ⟨[], by simp [command.execute,
      serveCapabilityCommand.execute]⟩, fun _ => rfl, fun _ => rfl⟩
  | serveListCommand tag => exact ⟨rfl, rfl, ⟨["LIST " ++ tag], rfl⟩, fun _ => rfl, fun _ => rfl⟩
  | serveFetchCommand tag seq dat =>
    exact ⟨rfl, rfl, ⟨[tag ++ " FETCH " ++ seq ++ " " ++ dat], rfl⟩, fun _ => rfl, fun _ => rfl⟩
  | serveUnknownCommand tag cmd =>
    exact ⟨rfl, rfl, ⟨["BAD unknown \x27" ++ cmd ++ "\x27 command"], rfl⟩, fun _ => rfl,
      fun _ => rfl⟩
  | serveLoginCommand tag u p => simp [command.isQuiet] at hc
  | serveLogoutCommand tag => simp [command.isQuiet] at hc
  | serveSelectCommand tag mailbox => simp [command.isQuiet] at hc

theorem quiet_commands_frame_witness :
    ((command.serveUnknownCommand "a7" "STATUS").execute brokenStore authSession).2.st
      = authSession.st :=
  (quiet_commands_frame brokenStore (.serveUnknownCommand "a7" "STATUS") authSession rfl).1

/-- C16: unless the command is a SELECT executed on an Authenticated session,
the response and the session after `execute` are the same for any two mailbox
stores: SELECT on a session that is not Authenticated and every other command
make no call to the mailbox store. -/
theorem store_only_when_authenticated (store1 store2 : mailstore) (c : command)
    (sess : session) (hc : c.isSelect = true → sess.st ≠ .authenticated) :
    c.execute store1 sess = c.execute store2 sess := by
  cases c with
  | serveSelectCommand tag mailbox =>
    have h : sess.st ≠ .authenticated := hc rfl
    simp only [command.execute]
    rw [select_notAuthenticated store1 tag mailbox sess h,
      select_notAuthenticated store2 tag mailbox sess h]
  | _ => rfl

theorem store_only_when_authenticated_witness :
    (command.serveSelectCommand "a1" "INBOX").execute inboxStore freshSession =
      (command.serveSelectCommand "a1" "INBOX").execute brokenStore freshSession :=
  store_only_when_authenticated inboxStore brokenStore (.serveSelectCommand "a1" "INBOX")
    freshSession (fun _ => by decide)

/-- An UNKNOWN command comes out of `parser.next` only for a keyword that is none
of the seven after lowercasing, and carries the first two token values. -/
theorem next_ok_unknown (toLower : String → String) (l rest : lexer) (tag cmd : String)
    (h : parser.next toLower l = (.ok (.serveUnknownCommand tag cmd), rest)) :
    ∃ t k l2, l = t :: k :: l2 ∧ toLower k.value ∉ keywords ∧ tag = t.value ∧ cmd = k.value := by
  cases l with
  | nil => simp [next_nil] at h
  | cons t l1 =>
    cases l1 with
    | nil =>
      rw [next_single] at h
      split at h <;> simp at h
    | cons k l2 =>
      refine ⟨t, k, l2, rfl, ?_⟩
      rw [next_cons] at h
      split at h
      · split at h
        · split at h
          · exact absurd (noop_ok _ _ _ _ h).1 (by simp)
          · split at h
            · exact absurd (capability_ok _ _ _ _ h).1 (by simp)
            · split at h
              · obtain ⟨u, p, e, -, -, -, -, hc⟩ := login_ok _ _ _ _ h
                exact absurd hc (by simp)
              · split at h
                · exact absurd (logout_ok _ _ _ _ h).1 (by simp)
                · split at h
                  · obtain ⟨m, e, -, -, -, hc⟩ := selectC_ok _ _ _ _ h
                    exact absurd hc (by simp)
                  · split at h
                    · simp [parser.list] at h
                    · split at h
                      · simp [parser.fetch] at h
                      · rename_i h1 h2 h3 h4 h5 h6 h7
                        have hc := (unknown_ok _ _ _ _ _ h).1
                        simp only [command.serveUnknownCommand.injEq] at hc
                        refine ⟨?_, hc.1, hc.2⟩
                        simp [keywords, h1, h2, h3, h4, h5, h6, h7]
        · simp at h
      · simp at h

/-- The message of the BAD response to an UNKNOWN command contains the keyword. -/
theorem unknown_message_names (tag cmd : String) (sess : session) :
    occursIn cmd (serveUnknownCommand.execute tag cmd sess).1.message := by
  show cmd.data <:+: ("BAD unknown \x27" ++ cmd ++ "\x27 command").data
  exact ⟨"BAD unknown \x27".data, "\x27 command".data, by simp [String.data_append]⟩

/-- C17: once the tag and the keyword are read, `parser.next` hands over to
`parser.unknown` exactly when the lowercase keyword is none of the seven
keywords.  In that case, on a line `tag kw t1 .. tn EOL` it returns the UNKNOWN
command that carries the tag and the keyword token value as it was written, and
leaves what follows the line; for one of the seven keywords it never returns an
UNKNOWN command.  Executing the UNKNOWN command answers BAD with a message that
contains the keyword as written. -/
theorem unknown_dispatch (toLower : String → String) (t k : token) (l : lexer)
    (ht : t.tokType = .stringTokenType) (hk : k.tokType = .stringTokenType) :
    (toLower k.value ∉ keywords →
      ∀ (skipped : List token) (eol : token) (rest : lexer),
        (∀ x ∈ skipped, x.tokType ≠ .eolTokenType) → eol.tokType = .eolTokenType →
        parser.next toLower (t :: k :: (skipped ++ eol :: rest)) =
          (.ok (.serveUnknownCommand t.value k.value), rest)) ∧
    (toLower k.value ∉ keywords →
      parser.next toLower (t :: k :: l) = parser.unknown t.value k.value l) ∧
    (toLower k.value ∈ keywords → ∀ tag cmd rest,
      parser.next toLower (t :: k :: l) ≠ (.ok (.serveUnknownCommand tag cmd), rest)) ∧
    (∀ tag cmd rest,
      parser.next toLower (t :: k :: l) = (.ok (.serveUnknownCommand tag cmd), rest) →
      tag = t.value ∧ cmd = k.value) ∧
    (∀ (tag : String) (sess : session),
      (serveUnknownCommand.execute tag k.value sess).1.status = .BAD ∧
      (serveUnknownCommand.execute tag k.value sess).1.message =
        "BAD unknown \x27" ++ k.value ++ "\x27 command" ∧
      occursIn k.value (serveUnknownCommand.execute tag k.value sess).1.message) := by
  have et : (⟨.stringTokenType, t.value⟩ : token) = t := by
    cases t; simp only [token.mk.injEq, and_true]; exact ht.symm
  have ek : (⟨.stringTokenType, k.value⟩ : token) = k := by
    cases k; simp only [token.mk.injEq, and_true]; exact hk.symm
  have hdispatch : toLower k.value ∉ keywords → ∀ l2 : lexer,
      parser.next toLower (t :: k :: l2) = parser.unknown t.value k.value l2 := by
    intro hkw l2
    have h := next_unknown toLower t.value k.value l2 hkw
    rw [et, ek] at h
    exact h
  refine ⟨?_, ?_, ?_, ?_, ?_⟩
  · intro hkw skipped eol rest hs he
    rw [hdispatch hkw]
    exact unknown_drain t.value k.value skipped eol rest hs he
  · intro hkw
    exact hdispatch hkw l
  · intro hkw tag cmd rest h
    obtain ⟨t1, k1, l2, hl, hnot, -, -⟩ := next_ok_unknown toLower _ rest tag cmd h
    simp only [List.cons.injEq] at hl
    rw [← hl.2.1] at hnot
    exact hnot hkw
  · intro tag cmd rest h
    obtain ⟨t1, k1, l2, hl, -, htag, hcmd⟩ := next_ok_unknown toLower _ rest tag cmd h
    simp only [List.cons.injEq] at hl
    rw [← hl.1] at htag
    rw [← hl.2.1] at hcmd
    exact ⟨htag, hcmd⟩
  · intro tag sess
    exact ⟨rfl, rfl, unknown_message_names tag k.value sess⟩

theorem unknown_dispatch_witness :
    parser.next asciiLower statusThenNoop =
      (.ok (.serveUnknownCommand "a1" "STATUS"),
        [⟨.stringTokenType, "a2"⟩, ⟨.stringTokenType, "NOOP"⟩, ⟨.eolTokenType, ""⟩]) ∧
    (serveUnknownCommand.execute "a1" "STATUS" freshSession).1.status = .BAD ∧
    (serveUnknownCommand.execute "a1" "STATUS" freshSession).1.message
      = "BAD unknown \x27STATUS\x27 command" ∧
    occursIn "STATUS" (serveUnknownCommand.execute "a1" "STATUS" freshSession).1.message :=
  ⟨(unknown_dispatch asciiLower ⟨.stringTokenType, "a1"⟩ ⟨.stringTokenType, "STATUS"⟩ []
      rfl rfl).1 (by decide)
      [⟨.stringTokenType, "INBOX"⟩, ⟨.stringTokenType, "(MESSAGES)"⟩] ⟨.eolTokenType, ""⟩
      [⟨.stringTokenType, "a2"⟩, ⟨.stringTokenType, "NOOP"⟩, ⟨.eolTokenType, ""⟩]
      (by decide) rfl,
    (unknown_dispatch asciiLower ⟨.stringTokenType, "a1"⟩ ⟨.stringTokenType, "STATUS"⟩ []
      rfl rfl).2.2.2.2 "a1" freshSession⟩

/-- A request line `a1 FETCH 1 BODY[]`. -/
def fetchLine : lexer :=
  [⟨.stringTokenType, "a1"⟩, ⟨.stringTokenType, "FETCH"⟩, ⟨.stringTokenType, "1"⟩,
    ⟨.stringTokenType, "BODY[]"⟩, ⟨.eolTokenType, ""⟩]

/-- C18, at the request line `a1 FETCH 1 BODY[]`: `parser.next` returns a FETCH
command whose `seq` and `dat` are empty and leaves the sequence, the data item
and the end-of-line unread; executing it answers BAD with the message
"a1 FETCH  ", in which neither the sequence nor the data item occurs. -/
theorem fetch_drops_arguments :
    parser.next asciiLower fetchLine =
      (.ok (.serveFetchCommand "a1" "" ""),
        [⟨.stringTokenType, "1"⟩, ⟨.stringTokenType, "BODY[]"⟩, ⟨.eolTokenType, ""⟩]) ∧
    ((command.serveFetchCommand "a1" "" "").execute inboxStore freshSession).1.status = .BAD ∧
    ((command.serveFetchCommand "a1" "" "").execute inboxStore freshSession).1.message
      = "a1 FETCH  " ∧
    ¬ occursIn "BODY[]"
      ((command.serveFetchCommand "a1" "" "").execute inboxStore freshSession).1.message ∧
    ((command.serveFetchCommand "a1" "" "").execute inboxStore freshSession).1.message
      ≠ "a1 FETCH 1 BODY[]" := by
  decide

/-- The token stream of `a1 LOGIN user pass`, `a2 SELECT INBOX`, `a3 LOGOUT`, each
line ended by CRLF. -/
def scenarioStream : lexer :=
  [⟨.stringTokenType, "a1"⟩, ⟨.stringTokenType, "LOGIN"⟩, ⟨.stringTokenType, "user"⟩,
    ⟨.stringTokenType, "pass"⟩, ⟨.eolTokenType, ""⟩,
    ⟨.stringTokenType, "a2"⟩, ⟨.stringTokenType, "SELECT"⟩, ⟨.stringTokenType, "INBOX"⟩,
    ⟨.eolTokenType, ""⟩,
    ⟨.stringTokenType, "a3"⟩, ⟨.stringTokenType, "LOGOUT"⟩, ⟨.eolTokenType, ""⟩]

/-- C11: on the stream of `a1 LOGIN user pass`, `a2 SELECT INBOX`, `a3 LOGOUT`,
from a NotAuthenticated session and with a mailbox store in which "INBOX" exists
and `addMailboxInfo` succeeds, three calls of `parser.next` return LOGIN, SELECT
and LOGOUT and exhaust the stream; executing them in turn answers
(a1, OK, "LOGIN completed"), (a2, OK, "SELECT completed") and
(a3, OK, "LOGOUT completed") with the untagged BYE line; only the third response
has the close flag set, and the session ends NotAuthenticated. -/
theorem scenario_three_responses (toLower : String → String) (store : mailstore)
    (lines : List String) (sess : session) (hsess : sess.st = .notAuthenticated)
    (h1 : toLower "LOGIN" = "login") (h2 : toLower "SELECT" = "select")
    (h3 : toLower "LOGOUT" = "logout")
    (hs : store.selectMailbox "INBOX" = .ok true)
    (hi : store.addMailboxInfo (some "INBOX") (ok "a2" "SELECT completed") = .ok lines) :
    parser.next toLower scenarioStream =
      (.ok (.serveLoginCommand "a1" "user" "pass"), scenarioStream.drop 5) ∧
    parser.next toLower (scenarioStream.drop 5) =
      (.ok (.serveSelectCommand "a2" "INBOX"), scenarioStream.drop 9) ∧
    parser.next toLower (scenarioStream.drop 9) = (.ok (.serveLogoutCommand "a3"), []) ∧
    (command.serveLoginCommand "a1" "user" "pass").execute store sess =
      (ok "a1" "LOGIN completed", { sess with st := .authenticated }) ∧
    (command.serveSelectCommand "a2" "INBOX").execute store { sess with st := .authenticated } =
      ({ tag := "a2", status := .OK, message := "SELECT completed", extraLines := lines,
          closeConnection := false },
        { sess with st := .authenticated, mailbox := some "INBOX" }) ∧
    (command.serveLogoutCommand "a3").execute store
        { sess with st := .authenticated, mailbox := some "INBOX" } =
      ({ tag := "a3", status := .OK, message := "LOGOUT completed",
          extraLines := ["BYE IMAP4rev1 Server logging out"], closeConnection := true },
        { sess with st := .notAuthenticated, mailbox := some "INBOX" }) := by
  refine ⟨?_, ?_, ?_, ?_, ?_, ?_⟩
  · simp only [scenarioStream, List.drop_succ_cons, List.drop_zero]
    rw [next_cons, login_cons]
    simp [h1]
  · simp only [scenarioStream, List.drop_succ_cons, List.drop_zero]
    rw [next_cons, selectC_cons]
    simp [h2]
  · simp only [scenarioStream, List.drop_succ_cons, List.drop_zero]
    rw [next_cons, logout_cons]
    simp [h3]
  · simp only [command.execute]
    exact login_notAuthenticated "a1" "user" "pass" sess hsess
  · simp only [command.execute]
    rw [select_present store "a2" "INBOX" lines { sess with st := .authenticated } rfl hs hi]
    have hx : ∀ (ls : List String) (r : serverResponse),
        (ls.foldl serverResponse.extra r).extraLines = r.extraLines ++ ls := by
      intro ls
      induction ls with
      | nil => intro r; simp
      | cons x xs ih => intro r; simp [ih, serverResponse.extra]
    obtain ⟨f1, f2, f3, f4⟩ := foldl_extra_fields lines (ok "a2" "SELECT completed")
    have f5 := hx lines (ok "a2" "SELECT completed")
    generalize lines.foldl serverResponse.extra (ok "a2" "SELECT completed") = r at f1 f2 f3 f4 f5
    cases r
    simp only [ok, List.nil_append] at f1 f2 f3 f4 f5
    simp [f1, f2, f3, f4, f5]
  · simp [command.execute, serveLogoutCommand.execute, ok, serverResponse.extra,
      serverResponse.shouldClose]

theorem scenario_three_responses_witness :
    parser.next asciiLower scenarioStream =
      (.ok (.serveLoginCommand "a1" "user" "pass"), scenarioStream.drop 5) ∧
    parser.next asciiLower (scenarioStream.drop 5) =
      (.ok (.serveSelectCommand "a2" "INBOX"), scenarioStream.drop 9) ∧
    parser.next asciiLower (scenarioStream.drop 9) = (.ok (.serveLogoutCommand "a3"), []) ∧
    (command.serveLoginCommand "a1" "user" "pass").execute inboxStore freshSession =
      (ok "a1" "LOGIN completed", { freshSession with st := .authenticated }) ∧
    (command.serveSelectCommand "a2" "INBOX").execute inboxStore
        { freshSession with st := .authenticated } =
      ({ tag := "a2", status := .OK, message := "SELECT completed", extraLines := ["1 EXISTS"],
          closeConnection := false },
        { freshSession with st := .authenticated, mailbox := some "INBOX" }) ∧
    (command.serveLogoutCommand "a3").execute inboxStore
        { freshSession with st := .authenticated, mailbox := some "INBOX" } =
      ({ tag := "a3", status := .OK, message := "LOGOUT completed",
          extraLines := ["BYE IMAP4rev1 Server logging out"], closeConnection := true },
        { freshSession with st := .notAuthenticated, mailbox := some "INBOX" }) :=
  scenario_three_responses asciiLower inboxStore ["1 EXISTS"] freshSession rfl
    (by decide) (by decide) (by decide) (by decide) rfl

theorem expectedKinds_prefix (lc : String) :
    [tokenType.stringTokenType, tokenType.stringTokenType] <+: expectedKinds lc :=
  ⟨_, rfl⟩

/-- Every failure of `parser.next`: either the lexer ran out of tokens, or the
token just consumed is the first one whose kind is not the expected one. -/
theorem next_error (toLower : String → String) (l rest : lexer) (e : parseError)
    (h : parser.next toLower l = (.error e, rest)) :
    (e = .endOfInput ∧ rest = []) ∨
    ∃ expected consumed bad, e = .unexpectedToken expected bad.tokType ∧
      l = consumed ++ bad :: rest ∧ bad.tokType ≠ expected ∧
      (consumed.map token.tokType ++ [expected]) <+: expectedKinds (keywordOf toLower l) := by
  rcases l with _ | ⟨t, l1⟩
  · rw [next_nil] at h
    simp only [Prod.mk.injEq, Except.error.injEq] at h
    exact Or.inl ⟨h.1.symm, h.2.symm⟩
  rcases l1 with _ | ⟨k, l2⟩
  · rw [next_single] at h
    by_cases ht : t.tokType = .stringTokenType
    · simp only [ht, if_true, Prod.mk.injEq, Except.error.injEq] at h
      exact Or.inl ⟨h.1.symm, h.2.symm⟩
    · simp only [ht, if_false, Prod.mk.injEq, Except.error.injEq] at h
      obtain ⟨rfl, rfl⟩ := h
      exact Or.inr ⟨.stringTokenType, [], t, rfl, rfl, ht, ⟨_, rfl⟩⟩
  rw [next_cons] at h
  by_cases ht : t.tokType = .stringTokenType
  swap
  · simp only [ht, if_false, Prod.mk.injEq, Except.error.injEq] at h
    obtain ⟨rfl, rfl⟩ := h
    exact Or.inr ⟨.stringTokenType, [], t, rfl, rfl, ht, ⟨_, rfl⟩⟩
  by_cases hk : k.tokType = .stringTokenType
  swap
  · simp only [ht, hk, if_true, if_false, Prod.mk.injEq, Except.error.injEq] at h
    obtain ⟨rfl, rfl⟩ := h
    refine Or.inr ⟨.stringTokenType, [t], k, rfl, rfl, hk, ?_⟩
    simp only [List.map_cons, List.map_nil, ht, List.singleton_append]
    exact expectedKinds_prefix _
  simp only [ht, hk, if_true] at h
  have hkw : keywordOf toLower (t :: k :: l2) = toLower k.value := by
    simp [keywordOf, keywordAt]
  rw [hkw]
  -- the three readers that match the end-of-line token only
  have eolOnly : ∀ (mk : command),
      (toLower k.value = "noop" ∨ toLower k.value = "capability" ∨
        toLower k.value = "logout") →
      (match l2 with
        | [] => ((.error .endOfInput, []) : parsed command)
        | a :: l3 =>
          if a.tokType = .eolTokenType then (.ok mk, l3)
          else (.error (.unexpectedToken .eolTokenType a.tokType), l3)) = (.error e, rest) →
      (e = .endOfInput ∧ rest = []) ∨
      ∃ expected consumed bad, e = .unexpectedToken expected bad.tokType ∧
        t :: k :: l2 = consumed ++ bad :: rest ∧ bad.tokType ≠ expected ∧
        (consumed.map token.tokType ++ [expected]) <+: expectedKinds (toLower k.value) := by
    intro mk hlc hr
    rcases l2 with _ | ⟨a, l3⟩
    · simp only [Prod.mk.injEq, Except.error.injEq] at hr
      exact Or.inl ⟨hr.1.symm, hr.2.symm⟩
    · by_cases ha : a.tokType = .eolTokenType
      · simp [ha] at hr
      · simp only [ha, if_false, Prod.mk.injEq, Except.error.injEq] at hr
        obtain ⟨rfl, rfl⟩ := hr
        refine Or.inr ⟨.eolTokenType, [t, k], a, rfl, rfl, ha, ?_⟩
        simp [expectedKinds, hlc, ht, hk]
  by_cases h1 : toLower k.value = "noop"
  · simp only [h1, if_true] at h
    rw [h1] at eolOnly
    rw [h1]
    refine eolOnly (.serveNoopCommand t.value) (Or.inl rfl) ?_
    rw [← h]
    cases l2 with
    | nil => rfl
    | cons a l3 => exact (noop_cons t.value a l3).symm
  by_cases h2 : toLower k.value = "capability"
  · simp only [h2, h1, if_true, if_false] at h
    rw [h2] at eolOnly h1
    rw [h2]
    refine eolOnly (.serveCapabilityCommand t.value) (Or.inr (Or.inl rfl)) ?_
    rw [← h]
    simp only [h1, if_false]
    cases l2 with
    | nil => rfl
    | cons a l3 => exact (capability_cons t.value a l3).symm
  by_cases h3 : toLower k.value = "login"
  · rw [if_neg h1, if_neg h2, if_pos h3] at h
    have hexp : expectedKinds (toLower k.value) =
        [.stringTokenType, .stringTokenType, .stringTokenType, .stringTokenType,
          .eolTokenType] := by
      rw [h3]; decide
    rw [hexp]
    rcases l2 with _ | ⟨a, l3⟩
    · simp only [parser.login, match_nil, Prod.mk.injEq, Except.error.injEq] at h
      exact Or.inl ⟨h.1.symm, h.2.symm⟩
    rw [login_cons] at h
    by_cases ha : a.tokType = .stringTokenType
    swap
    · simp only [ha, if_false, Prod.mk.injEq, Except.error.injEq] at h
      obtain ⟨rfl, rfl⟩ := h
      exact Or.inr ⟨.stringTokenType, [t, k], a, rfl, rfl, ha, by simp [ht, hk]⟩
    simp only [ha, if_true] at h
    rcases l3 with _ | ⟨b, l4⟩
    · simp only [Prod.mk.injEq, Except.error.injEq] at h
      exact Or.inl ⟨h.1.symm, h.2.symm⟩
    by_cases hb : b.tokType = .stringTokenType
    swap
    · simp only [hb, if_false, Prod.mk.injEq, Except.error.injEq] at h
      obtain ⟨rfl, rfl⟩ := h
      exact Or.inr ⟨.stringTokenType, [t, k, a], b, rfl, rfl, hb, by simp [ht, hk, ha]⟩
    simp only [hb, if_true] at h
    rcases l4 with _ | ⟨c, l5⟩
    · simp only [Prod.mk.injEq, Except.error.injEq] at h
      exact Or.inl ⟨h.1.symm, h.2.symm⟩
    by_cases hc : c.tokType = .eolTokenType
    · simp [hc] at h
    · simp only [hc, if_false, Prod.mk.injEq, Except.error.injEq] at h
      obtain ⟨rfl, rfl⟩ := h
      exact Or.inr ⟨.eolTokenType, [t, k, a, b], c, rfl, rfl, hc, by simp [ht, hk, ha, hb]⟩
  by_cases h4 : toLower k.value = "logout"
  · rw [if_neg h1, if_neg h2, if_neg h3, if_pos h4] at h
    refine eolOnly (.serveLogoutCommand t.value) (Or.inr (Or.inr h4)) ?_
    rw [← h]
    cases l2 with
    | nil => rfl
    | cons a l3 => exact (logout_cons t.value a l3).symm
  by_cases h5 : toLower k.value = "select"
  · rw [if_neg h1, if_neg h2, if_neg h3, if_neg h4, if_pos h5] at h
    have hexp : expectedKinds (toLower k.value) =
        [.stringTokenType, .stringTokenType, .stringTokenType, .eolTokenType] := by
      rw [h5]; decide
    rw [hexp]
    rcases l2 with _ | ⟨a, l3⟩
    · simp only [parser.selectC, match_nil, Prod.mk.injEq, Except.error.injEq] at h
      exact Or.inl ⟨h.1.symm, h.2.symm⟩
    rw [selectC_cons] at h
    by_cases ha : a.tokType = .stringTokenType
    swap
    · simp only [ha, if_false, Prod.mk.injEq, Except.error.injEq] at h
      obtain ⟨rfl, rfl⟩ := h
      exact Or.inr ⟨.stringTokenType, [t, k], a, rfl, rfl, ha, by simp [ht, hk]⟩
    simp only [ha, if_true] at h
    rcases l3 with _ | ⟨b, l4⟩
    · simp only [Prod.mk.injEq, Except.error.injEq] at h
      exact Or.inl ⟨h.1.symm, h.2.symm⟩
    by_cases hb : b.tokType = .eolTokenType
    · simp [hb] at h
    · simp only [hb, if_false, Prod.mk.injEq, Except.error.injEq] at h
      obtain ⟨rfl, rfl⟩ := h
      exact Or.inr ⟨.eolTokenType, [t, k, a], b, rfl, rfl, hb, by simp [ht, hk, ha]⟩
  rw [if_neg h1, if_neg h2, if_neg h3, if_neg h4, if_neg h5] at h
  by_cases h6 : toLower k.value = "list"
  · rw [if_pos h6] at h
    simp [parser.list] at h
  by_cases h7 : toLower k.value = "fetch"
  · rw [if_neg h6, if_pos h7] at h
    simp [parser.fetch] at h
  rw [if_neg h6, if_neg h7] at h
  rcases unknown_error t.value k.value l2 with ⟨c, r, hu⟩ | hu
  · rw [hu] at h
    simp at h
  · rw [hu] at h
    simp only [Prod.mk.injEq, Except.error.injEq] at h
    exact Or.inl ⟨h.1.symm, h.2.symm⟩

/-- A request line `a1 LOGIN user`, one argument short, followed by `a2 NOOP`. -/
def loginShort : lexer :=
  [⟨.stringTokenType, "a1"⟩, ⟨.stringTokenType, "LOGIN"⟩, ⟨.stringTokenType, "user"⟩,
    ⟨.eolTokenType, ""⟩,
    ⟨.stringTokenType, "a2"⟩, ⟨.stringTokenType, "NOOP"⟩, ⟨.eolTokenType, ""⟩]

/-- C19: when `parser.next` fails on a token of the wrong kind, the error names
the kind that was expected and the kind of that token; the tokens consumed
before it all have the kinds the grammar of the keyword expects in stream order,
so it is the first mismatching token; and the lexer is left right after it, no
later token being consumed. -/
theorem fails_at_first_mismatch (toLower : String → String) (l rest : lexer)
    (expected actual : tokenType)
    (h : parser.next toLower l = (.error (.unexpectedToken expected actual), rest)) :
    ∃ consumed bad, l = consumed ++ bad :: rest ∧ bad.tokType = actual ∧ actual ≠ expected ∧
      (consumed.map token.tokType ++ [expected]) <+: expectedKinds (keywordOf toLower l) := by
  rcases next_error toLower l rest _ h with ⟨he, -⟩ | ⟨exp, consumed, bad, he, hl, hne, hp⟩
  · cases he
  · simp only [parseError.unexpectedToken.injEq] at he
    obtain ⟨rfl, rfl⟩ := he
    exact ⟨consumed, bad, hl, rfl, hne, hp⟩

theorem fails_at_first_mismatch_witness :
    parser.next asciiLower loginShort =
      (.error (.unexpectedToken .stringTokenType .eolTokenType), loginShort.drop 4) ∧
    ∃ consumed bad, loginShort = consumed ++ bad :: loginShort.drop 4 ∧
      bad.tokType = .eolTokenType ∧ tokenType.eolTokenType ≠ tokenType.stringTokenType ∧
      (consumed.map token.tokType ++ [tokenType.stringTokenType]) <+:
        expectedKinds (keywordOf asciiLower loginShort) :=
  ⟨by decide,
    fails_at_first_mismatch asciiLower loginShort (loginShort.drop 4) .stringTokenType
      .eolTokenType (by decide)⟩

theorem select_execute_st (store : mailstore) (tag mailbox : String) (sess : session) :
    (serveSelectCommand.execute store tag mailbox sess).2.st = sess.st := by
  by_cases h : sess.st = .authenticated
  · match hs : store.selectMailbox mailbox with
    | .error err => rw [select_lookup_error store tag mailbox err sess h hs]; rfl
    | .ok false => rw [select_absent store tag mailbox sess h hs]
    | .ok true =>
      match hi : store.addMailboxInfo (some mailbox) (ok tag "SELECT completed") with
      | .error err => rw [select_info_error store tag mailbox err sess h hs hi]; rfl
      | .ok lines => rw [select_present store tag mailbox lines sess h hs hi]
  · rw [select_notAuthenticated store tag mailbox sess h]; rfl

/-- The authentication state after one command: LOGOUT clears it, LOGIN sets it,
every other command keeps it. -/
theorem execute_st (store : mailstore) (c : command) (sess : session) :
    (c.execute store sess).2.st =
      if c.isLogout = true then .notAuthenticated
      else if c.isLogin = true then .authenticated
      else sess.st := by
  cases c with
  | serveLoginCommand tag u p =>
    by_cases h : sess.st = .notAuthenticated
    · simp [command.execute, command.isLogout, command.isLogin,
        login_notAuthenticated tag u p sess h]
    · have ha : sess.st = .authenticated := by
        cases hst : sess.st with
        | notAuthenticated => exact absurd hst h
        | authenticated => rfl
      simp [command.execute, command.isLogout, command.isLogin,
        login_authenticated tag u p sess h, session.log, ha]
  | serveSelectCommand tag mailbox =>
    simp [command.execute, command.isLogout, command.isLogin, select_execute_st]
  | _ => rfl

theorem loginStands_nil : ¬ loginStands [] := by
  rintro ⟨before, c, after, h, -⟩
  simp at h

theorem loginStands_cons (c : command) (cs : List command) :
    loginStands (c :: cs) ↔
      (c.isLogin = true ∧ ∀ d ∈ cs, d.isLogout = false) ∨ loginStands cs := by
  constructor
  · rintro ⟨before, x, after, h, hx, ha⟩
    cases before with
    | nil =>
      simp only [List.nil_append, List.cons.injEq] at h
      obtain ⟨rfl, rfl⟩ := h
      exact Or.inl ⟨hx, ha⟩
    | cons b bs =>
      simp only [List.cons_append, List.cons.injEq] at h
      exact Or.inr ⟨bs, x, after, h.2, hx, ha⟩
  · rintro (⟨hc, ha⟩ | ⟨before, x, after, h, hx, ha⟩)
    · exact ⟨[], c, cs, rfl, hc, ha⟩
    · exact ⟨c :: before, x, after, by simp [h], hx, ha⟩

/-- The state after a sequence of commands from any starting session. -/
theorem runCommands_st (steps : List (mailstore × command)) (sess : session) :
    (runCommands steps sess).st = .authenticated ↔
      loginStands (steps.map Prod.snd) ∨
      (sess.st = .authenticated ∧ ∀ d ∈ steps.map Prod.snd, d.isLogout = false) := by
  induction steps generalizing sess with
  | nil => simp [runCommands, loginStands_nil]
  | cons step steps ih =>
    obtain ⟨store, c⟩ := step
    simp only [runCommands, List.map_cons, List.mem_cons, forall_eq_or_imp]
    rw [ih, loginStands_cons, execute_st]
    by_cases hout : c.isLogout = true
    · have hin : c.isLogin = false := by cases c <;> simp_all [command.isLogin, command.isLogout]
      simp [hout, hin]
    · by_cases hin : c.isLogin = true
      · simp [hout, hin]
        tauto
      · simp [hout, hin]

/-- A session history: LOGIN, a SELECT on a failing store, NOOP. -/
def loginSelectNoop : List (mailstore × command) :=
  [(inboxStore, .serveLoginCommand "a1" "user" "pass"),
    (brokenStore, .serveSelectCommand "a2" "INBOX"),
    (inboxStore, .serveNoopCommand "a3")]

/-- C20: from a NotAuthenticated session, after any finite sequence of commands
and whatever the mailbox store answers, the session is Authenticated exactly
when the sequence contains a LOGIN with no LOGOUT after it; a single command
that takes the state from NotAuthenticated to Authenticated is a LOGIN, and one
that takes it from Authenticated to NotAuthenticated is a LOGOUT. -/
theorem authenticated_iff_login_stands (steps : List (mailstore × command)) (sess : session)
    (h : sess.st = .notAuthenticated) :
    ((runCommands steps sess).st = .authenticated ↔ loginStands (steps.map Prod.snd)) ∧
    (∀ (store : mailstore) (c : command) (s : session), s.st = .notAuthenticated →
      (c.execute store s).2.st = .authenticated → c.isLogin = true) ∧
    (∀ (store : mailstore) (c : command) (s : session), s.st = .authenticated →
      (c.execute store s).2.st = .notAuthenticated → c.isLogout = true) := by
  refine ⟨?_, ?_, ?_⟩
  · rw [runCommands_st, h]
    simp
  · intro store c s hs hafter
    rw [execute_st, hs] at hafter
    by_cases hout : c.isLogout = true
    · simp [hout] at hafter
    · by_cases hin : c.isLogin = true
      · exact hin
      · simp [hout, hin] at hafter
  · intro store c s hs hafter
    rw [execute_st, hs] at hafter
    by_cases hout : c.isLogout = true
    · exact hout
    · by_cases hin : c.isLogin = true
      · simp [hout, hin] at hafter
      · simp [hout, hin] at hafter

theorem authenticated_iff_login_stands_witness :
    freshSession.st = .notAuthenticated ∧
    (runCommands loginSelectNoop freshSession).st = .authenticated :=
  ⟨rfl, (authenticated_iff_login_stands loginSelectNoop freshSession rfl).1.mpr
    ⟨[], .serveLoginCommand "a1" "user" "pass",
      [.serveSelectCommand "a2" "INBOX", .serveNoopCommand "a3"], rfl, rfl, by decide⟩⟩

end imap
